import Mathlib

/-!
Shallow embedding of the multi-provider LLM routing layer of the `agents`
repository (files `src/common/llm/manager.py`, `src/common/llm/provider.py`,
`src/common/llm/request.py`, `src/common/llm/config.py`) together with
theorems settling the frozen claims about it.

Modelling conventions:
* Python floats become rationals (`ℚ`); wall-clock timestamps become a
  rational number of seconds and calendar dates a natural day number, both
  passed explicitly where the source calls `datetime.utcnow()`.
* The adapters perform network I/O; their behaviour during one `generate`
  call is abstracted as a function from provider name to an outcome
  (`AttemptResult` / `StreamBehavior`): either a returned response (the
  adapters catch their own exceptions), or an exception escaping the
  adapter, which is the case `LLMManager.generate` must catch.
* A `StreamChunk` metadata dict is modelled as an association list of
  string pairs; the manager only ever reads the "error" key.
-/

namespace AgentsLLM

/-! ## Data model (`src/common/llm/request.py`) -/

/-- `LLMMessage` (request.py): one role-tagged message of a conversation. -/
structure LLMMessage where
  role : String
  content : String
deriving DecidableEq

/-- `LLMRequest` (request.py), restricted to the fields the routing manager
reads: the correlation id and the message list (whose non-emptiness is the
well-formedness condition of the spec). -/
structure LLMRequest where
  request_id : String
  messages : List LLMMessage
deriving DecidableEq

/-- `LLMUsage` (request.py).  `estimated_cost` is the field the manager
reads to account cost; every adapter in the repository fills it in whenever
it attaches a `usage` object, so it is embedded as a plain rational. -/
structure LLMUsage where
  prompt_tokens : Nat := 0
  completion_tokens : Nat := 0
  total_tokens : Nat := 0
  estimated_cost : ℚ := 0
deriving DecidableEq

/-- `LLMResponse` (request.py).  Field defaults follow the pydantic model:
`content` defaults to the empty string and `error` to `None`. -/
structure LLMResponse where
  request_id : String
  content : String := ""
  finish_reason : Option String := none
  usage : Option LLMUsage := none
  model : Option String := none
  provider : String
  latency_ms : Option ℚ := none
  error : Option String := none
deriving DecidableEq

/-- `LLMStreamChunk` (request.py); `metadata` is the dict the manager probes
for the "error" key, modelled as an association list. -/
structure LLMStreamChunk where
  request_id : String
  content : String := ""
  finish_reason : Option String := none
  is_final : Bool := false
  metadata : List (String × String) := []
deriving DecidableEq

/-- `chunk.metadata.get "error"` as the manager and the adapters use it. -/
def LLMStreamChunk.metaError (c : LLMStreamChunk) : Option String :=
  (c.metadata.find? (fun kv => kv.1 == "error")).map (fun kv => kv.2)

/-! ## Provider configuration (`src/common/llm/config.py`) -/

/-- `ProviderConfig` (config.py), restricted to the fields the routing and
admission logic reads.  `cost_limit_per_day` is `Optional[float]` in the
source, default `None`. -/
structure ProviderConfig where
  name : String
  rate_limit : Nat := 60
  cost_limit_per_day : Option ℚ := none
deriving DecidableEq

/-! ## Provider statistics (`ProviderStats` in `src/common/llm/manager.py`) -/

/-- `ProviderStats.__init__`: all counters zero, `last_reset` the current
date, `recent_requests` an empty deque with `maxlen=100`. -/
structure ProviderStats where
  requests : Nat := 0
  successes : Nat := 0
  failures : Nat := 0
  total_cost : ℚ := 0
  total_latency : ℚ := 0
  daily_cost : ℚ := 0
  last_reset : Nat := 0
  recent_requests : List ℚ := []
deriving DecidableEq

/-- A fresh `ProviderStats()` created on day `today`. -/
def freshStats (today : Nat) : ProviderStats := { last_reset := today }

/-- `ProviderStats.success_rate`: `1.0` when no requests, else
`successes / requests`. -/
def ProviderStats.success_rate (st : ProviderStats) : ℚ :=
  if st.requests = 0 then 1 else (st.successes : ℚ) / (st.requests : ℚ)

/-- `ProviderStats.avg_latency`: `0.0` when no successes, else
`total_latency / successes`. -/
def ProviderStats.avg_latency (st : ProviderStats) : ℚ :=
  if st.successes = 0 then 0 else st.total_latency / (st.successes : ℚ)

/-- `deque(maxlen=100).append`: append, evicting the oldest entries beyond
one hundred. -/
def pushRecent (l : List ℚ) (t : ℚ) : List ℚ :=
  let r := l ++ [t]
  if r.length > 100 then r.drop (r.length - 100) else r

/-- `ProviderStats.record_request(success, latency, cost)`.  The wall clock
read by `datetime.utcnow()` is passed in as the timestamp `nowTime` and the
date `today`. -/
def ProviderStats.record_request (st : ProviderStats) (success : Bool)
    (latency cost : ℚ) (nowTime : ℚ) (today : Nat) : ProviderStats :=
  let st :=
    if st.last_reset < today then { st with daily_cost := 0, last_reset := today } else st
  let st := { st with
    requests := st.requests + 1,
    recent_requests := pushRecent st.recent_requests nowTime }
  if success then
    { st with
      successes := st.successes + 1,
      total_latency := st.total_latency + latency,
      total_cost := st.total_cost + cost,
      daily_cost := st.daily_cost + cost }
  else
    { st with failures := st.failures + 1 }

/-- `ProviderStats.get_current_rate`: how many recent timestamps fall inside
the trailing sixty-second window. -/
def ProviderStats.get_current_rate (st : ProviderStats) (nowTime : ℚ) : Nat :=
  (st.recent_requests.filter (fun t => decide (nowTime - 60 < t))).length

/-! ## Admission control (`LLMManager._can_use_provider`) -/

/-- Python truthiness of the `Optional[float]` field `cost_limit_per_day`:
`None` and `0.0` are falsy. -/
def costLimitTruthy : Option ℚ → Bool
  | none => false
  | some q => decide (q ≠ 0)

/-- `LLMManager._can_use_provider(provider_name, stats, config)`: the three
admission checks, in source order.  The cost check is guarded by Python
truthiness of `config.cost_limit_per_day` (`if config.cost_limit_per_day
and stats.daily_cost >= config.cost_limit_per_day`). -/
def canUseProvider (stats : ProviderStats) (config : ProviderConfig)
    (nowTime : ℚ) : Bool :=
  if stats.get_current_rate nowTime ≥ config.rate_limit then false
  else if costLimitTruthy config.cost_limit_per_day
      && decide (stats.daily_cost ≥ (config.cost_limit_per_day.getD 0)) then false
  else if stats.requests > 10 && decide (stats.success_rate < 1/10) then false
  else true

/-! ## Manager environment and adapter behaviour -/

/-- The registry and configuration a fully initialized `LLMManager` holds:
`providers` are the keys of `self.providers` (insertion order),
`config_providers` is `self.config.providers` (total, as every registered
provider was built from its config entry), plus the two global routing
flags of `LLMConfig`. -/
structure ManagerEnv where
  providers : List String
  config_providers : String → ProviderConfig
  load_balancing : Bool
  fallback_order : List String

/-- Outcome of one `await provider.generate(request)` call: either the
adapter returns a response after `latency` milliseconds, or an exception
with message `msg` escapes the adapter. -/
inductive AttemptResult where
  | resp (r : LLMResponse) (latency : ℚ)
  | exn (msg : String)
deriving DecidableEq

/-- The error text an attempt contributes: the response's `error` field, or
`str(e)` for an escaped exception.  `none` exactly when the attempt
succeeded. -/
def outcomeError : AttemptResult → Option String
  | .resp r _ => r.error
  | .exn msg => some msg

/-- Point update of the `self.stats` defaultdict. -/
def updateStats (st : String → ProviderStats) (name : String)
    (f : ProviderStats → ProviderStats) : String → ProviderStats :=
  fun q => if q = name then f (st name) else st q

/-- `f"{x}"` applied to an `Optional[str]`: `None` prints as "None". -/
def pyStr : Option String → String
  | none => "None"
  | some s => s

/-- The terminal response of `LLMManager.generate` when every candidate was
skipped or failed (manager.py, end of `generate`). -/
def allFailedResponse (reqId : String) (lastError : Option String) : LLMResponse :=
  { request_id := reqId, provider := "failed",
    error := some ("All providers failed. Last error: " ++ pyStr lastError) }

/-- The response `LLMManager.generate` returns when lazy initialization
fails (manager.py, top of `generate`). -/
def noProvidersResponse (reqId : String) : LLMResponse :=
  { request_id := reqId, provider := "none", error := some "No providers available" }

/-- `cost = response.usage.estimated_cost if response.usage else 0.0`
(manager.py, inside `generate`). -/
def costOf (r : LLMResponse) : ℚ :=
  match r.usage with
  | some u => u.estimated_cost
  | none => 0

/-- The error response an adapter's `generate` builds in its `except`
branch (e.g. `OpenAIProvider.generate`): provider name and error message
set, latency recorded, content left at its empty default. -/
def adapterErrorResponse (reqId providerName msg : String) (lat : ℚ) : LLMResponse :=
  { request_id := reqId, provider := providerName,
    error := some msg, latency_ms := some lat }

/-! ## Provider ordering (`_get_provider_order`, `_get_load_balanced_order`) -/

/-- The score computed inside `_get_load_balanced_order`; note the source's
`avg_latency = stats.avg_latency or 1000`, which replaces a zero (falsy)
average latency by the one-second default. -/
def providerScore (stats : ProviderStats) (config : ProviderConfig)
    (nowTime : ℚ) : ℚ :=
  let success_rate := stats.success_rate
  let avg_latency : ℚ := if stats.avg_latency = 0 then 1000 else stats.avg_latency
  let current_rate : ℚ := (stats.get_current_rate nowTime : ℚ)
  success_rate * 100 - avg_latency / 10 - current_rate / (config.rate_limit : ℚ) * 50

/-- Descending lexicographic comparison on (score, tiebreak), mirroring
`scores.sort(key=lambda x: (x[0], random.random()), reverse=True)`. -/
def scoreDescLe (a b : ℚ × ℚ × String) : Bool :=
  decide (b.1 < a.1) || (decide (a.1 = b.1) && decide (b.2.1 ≤ a.2.1))

/-- `LLMManager._get_load_balanced_order(providers)`.  The random secondary
sort key is abstracted as the tiebreak function `tb`. -/
def getLoadBalancedOrder (env : ManagerEnv) (stats : String → ProviderStats)
    (nowTime : ℚ) (tb : String → ℚ) (providers : List String) : List String :=
  let scored := providers.map
    (fun p => (providerScore (stats p) (env.config_providers p) nowTime, tb p, p))
  (scored.mergeSort scoreDescLe).map (fun x => x.2.2)

/-- `LLMManager._get_provider_order(preferred_provider)`.  A preferred
provider is honoured when it is truthy (non-empty) and registered; else the
load-balanced order when `load_balancing` is set; else the configured
fallback order with unlisted registered providers appended. -/
def getProviderOrder (env : ManagerEnv) (stats : String → ProviderStats)
    (preferred : Option String) (nowTime : ℚ) (tb : String → ℚ) : List String :=
  let available := env.providers
  match preferred with
  | some p =>
    if p ≠ "" ∧ p ∈ available then p :: available.filter (fun q => q ≠ p)
    else if env.load_balancing then getLoadBalancedOrder env stats nowTime tb available
    else
      let ord := env.fallback_order.filter (fun q => q ∈ available)
      ord ++ available.filter (fun q => q ∉ ord)
  | none =>
    if env.load_balancing then getLoadBalancedOrder env stats nowTime tb available
    else
      let ord := env.fallback_order.filter (fun q => q ∈ available)
      ord ++ available.filter (fun q => q ∉ ord)

/-! ## Non-streaming generation (`LLMManager.generate`) -/

/-- The fallback loop of `LLMManager.generate`: try the candidates in
order, skipping unregistered or inadmissible ones; record statistics after
every attempt; return the first response without error; remember the error
text otherwise; catch an adapter exception as a recorded failure.  Returns
the response together with the updated statistics map. -/
def generateGo (env : ManagerEnv) (behavior : String → AttemptResult)
    (nowTime : ℚ) (today : Nat) (reqId : String) :
    List String → Option String → (String → ProviderStats) →
    LLMResponse × (String → ProviderStats)
  | [], lastError, st => (allFailedResponse reqId lastError, st)
  | name :: rest, lastError, st =>
    if name ∉ env.providers then
      generateGo env behavior nowTime today reqId rest lastError st
    else if canUseProvider (st name) (env.config_providers name) nowTime = false then
      generateGo env behavior nowTime today reqId rest lastError st
    else
      match behavior name with
      | .resp r lat =>
        let success := r.error.isNone
        let st' := updateStats st name
          (fun s => s.record_request success lat (costOf r) nowTime today)
        if success then (r, st')
        else generateGo env behavior nowTime today reqId rest r.error st'
      | .exn msg =>
        let st' := updateStats st name
          (fun s => s.record_request false 0 0 nowTime today)
        generateGo env behavior nowTime today reqId rest (some msg) st'

/-- `LLMManager.generate(request, preferred_provider)`.  `isInit` is
`self.is_initialized`; `initOk` is the outcome of the lazy
`await self.initialize()` when it is consulted. -/
def LLMManager.generate (env : ManagerEnv) (behavior : String → AttemptResult)
    (nowTime : ℚ) (today : Nat) (reqId : String) (isInit initOk : Bool)
    (preferred : Option String) (tb : String → ℚ)
    (st : String → ProviderStats) : LLMResponse × (String → ProviderStats) :=
  if isInit = false ∧ initOk = false then (noProvidersResponse reqId, st)
  else
    generateGo env behavior nowTime today reqId
      (getProviderOrder env st preferred nowTime tb) none st

/-! ## Streaming generation (`LLMManager.stream_generate`) -/

/-- Behaviour of one `provider.stream_generate(request)` iteration: the
generator yields `chunks` and then either finishes normally or raises an
exception carrying `msg`. -/
inductive StreamBehavior where
  | yields (chunks : List LLMStreamChunk)
  | yieldsThenRaises (chunks : List LLMStreamChunk) (msg : String)
deriving DecidableEq

/-- The chunks a `StreamBehavior` would yield were it iterated to the end. -/
def StreamBehavior.chunksOf : StreamBehavior → List LLMStreamChunk
  | .yields cs => cs
  | .yieldsThenRaises cs _ => cs

/-- The manager's inner `async for` loop: every chunk is yielded as it
arrives, and iteration stops at the first chunk with `is_final` set.
Returns the yielded chunks and, when one was reached, the terminal chunk. -/
def emitUntilFinal : List LLMStreamChunk →
    List LLMStreamChunk × Option LLMStreamChunk
  | [] => ([], none)
  | c :: cs =>
    if c.is_final then ([c], some c)
    else
      let r := emitUntilFinal cs
      (c :: r.1, r.2)

/-- The terminal chunk `stream_generate` emits after the candidate loop is
exhausted (manager.py, end of `stream_generate`). -/
def allFailedChunk (reqId : String) : LLMStreamChunk :=
  { request_id := reqId, content := "", is_final := true,
    metadata := [("error", "All providers failed for streaming")] }

/-- The candidate loop of `LLMManager.stream_generate`: skip unregistered
or inadmissible candidates; iterate the adapter's chunks, forwarding each;
at the first terminal chunk record statistics once (success exactly when
the chunk's metadata carries no error) and end the call; on an adapter
exception record a failure and move to the next candidate; a stream that
ends without a terminal chunk records nothing and also falls through.
`slat` is the elapsed time the manager would measure for a candidate's
stream. -/
def streamGo (env : ManagerEnv) (sbehavior : String → StreamBehavior)
    (slat : String → ℚ) (nowTime : ℚ) (today : Nat) (reqId : String) :
    List String → (String → ProviderStats) →
    List LLMStreamChunk × (String → ProviderStats)
  | [], st => ([allFailedChunk reqId], st)
  | name :: rest, st =>
    if name ∉ env.providers then
      streamGo env sbehavior slat nowTime today reqId rest st
    else if canUseProvider (st name) (env.config_providers name) nowTime = false then
      streamGo env sbehavior slat nowTime today reqId rest st
    else
      match sbehavior name with
      | .yields cs =>
        match emitUntilFinal cs with
        | (em, some c) =>
          (em, updateStats st name
            (fun s => s.record_request c.metaError.isNone (slat name) 0 nowTime today))
        | (em, none) =>
          let r := streamGo env sbehavior slat nowTime today reqId rest st
          (em ++ r.1, r.2)
      | .yieldsThenRaises cs _msg =>
        match emitUntilFinal cs with
        | (em, some c) =>
          (em, updateStats st name
            (fun s => s.record_request c.metaError.isNone (slat name) 0 nowTime today))
        | (em, none) =>
          let st' := updateStats st name
            (fun s => s.record_request false 0 0 nowTime today)
          let r := streamGo env sbehavior slat nowTime today reqId rest st'
          (em ++ r.1, r.2)

/-- `LLMManager.stream_generate(request, preferred_provider)` with the same
initialization flags as `LLMManager.generate`. -/
def LLMManager.stream_generate (env : ManagerEnv)
    (sbehavior : String → StreamBehavior) (slat : String → ℚ)
    (nowTime : ℚ) (today : Nat) (reqId : String) (isInit initOk : Bool)
    (preferred : Option String) (tb : String → ℚ)
    (st : String → ProviderStats) :
    List LLMStreamChunk × (String → ProviderStats) :=
  if isInit = false ∧ initOk = false then
    ([{ request_id := reqId, content := "", is_final := true,
        metadata := [("error", "No providers available")] }], st)
  else
    streamGo env sbehavior slat nowTime today reqId
      (getProviderOrder env st preferred nowTime tb) st

/-! ## Simulated streaming of a non-streaming-native adapter
(`GeminiProvider.stream_generate` in `src/common/llm/provider.py`) -/

/-- `" ".join(words)`. -/
def joinSpace : List String → String
  | [] => ""
  | [w] => w
  | w :: ws => w ++ " " ++ joinSpace ws

/-- The ASCII whitespace characters Python `str.split()` cuts on (space,
tab, newline, vertical tab, form feed, carriage return). -/
def isPySpace (c : Char) : Bool :=
  c = ' ' || c = '\t' || c = '\n' || c = '\x0b' || c = '\x0c' || c = '\r'

/-- Helper for `pySplit`: scan the characters, cutting a word at every run
of whitespace and dropping empty fragments, as Python `str.split()` does. -/
def splitWordsAux : List Char → List Char → List String
  | [], acc => if acc = [] then [] else [String.mk acc.reverse]
  | c :: cs, acc =>
    if isPySpace c then
      if acc = [] then splitWordsAux cs []
      else String.mk acc.reverse :: splitWordsAux cs []
    else splitWordsAux cs (c :: acc)

/-- `response.content.split()`: Python `str.split()` splits on runs of
whitespace and drops empty fragments. -/
def pySplit (s : String) : List String :=
  splitWordsAux s.data []

/-- The loop `for i in range(0, len(words), 5)` of
`GeminiProvider.stream_generate`: each chunk carries
`" ".join(words[i:i+5]) + " "` and `is_final = (i + 5 >= len(words))`. -/
def geminiChunksFrom (reqId : String) (words : List String) (i : Nat) :
    List LLMStreamChunk :=
  if h : i < words.length then
    { request_id := reqId,
      content := joinSpace ((words.drop i).take 5) ++ " ",
      is_final := decide (i + 5 ≥ words.length) }
      :: geminiChunksFrom reqId words (i + 5)
  else []
termination_by words.length - i
decreasing_by omega

/-- Python truthiness of the `Optional[str]` field `error`: `None` and the
empty string are falsy. -/
def errTruthy : Option String → Bool
  | none => false
  | some s => decide (s ≠ "")

/-- `GeminiProvider.stream_generate`: the adapter first runs its full
`generate`; `if response.error:` (truthiness — `None` and `""` are falsy)
yields one terminal chunk carrying the error in metadata, otherwise the
response content is re-chunked in word groups of five (so a failure whose
error text is the empty string falls into the chunking branch). -/
def geminiStreamGenerate (reqId : String) (resp : LLMResponse) :
    List LLMStreamChunk :=
  if errTruthy resp.error then
    [{ request_id := reqId, content := "", is_final := true,
       metadata := [("error", resp.error.getD "")] }]
  else geminiChunksFrom reqId (pySplit resp.content) 0

/-- Concatenation of the contents of a chunk sequence. -/
def concatContents (cs : List LLMStreamChunk) : String :=
  cs.foldl (fun acc c => acc ++ c.content) ""

/-! ## Spec-side definitions

These two definitions transcribe the *claim's words* (not the source) and
exist only to be compared against the source-derived definitions above. -/

/-- The admission-rejection condition exactly as claim C3 words it: rate at
or above the limit, or a daily cost ceiling configured (present at all) and
reached, or more than ten requests with success rate below ten percent. -/
def specAdmissionReject (stats : ProviderStats) (config : ProviderConfig)
    (nowTime : ℚ) : Prop :=
  stats.get_current_rate nowTime ≥ config.rate_limit
  ∨ (∃ c, config.cost_limit_per_day = some c ∧ stats.daily_cost ≥ c)
  ∨ (stats.requests > 10 ∧ stats.success_rate < 1/10)

/-- The load-balancing score exactly as claim C6 words it:
`(success_rate × 100) − (avg_latency_ms / 10) −
(current_rate / configured_rate_limit × 50)`. -/
def specScore (stats : ProviderStats) (config : ProviderConfig)
    (nowTime : ℚ) : ℚ :=
  stats.success_rate * 100 - stats.avg_latency / 10
    - (stats.get_current_rate nowTime : ℚ) / (config.rate_limit : ℚ) * 50

/-- The success/failure exclusivity invariant of a response (spec section 3,
claim C9): an error-bearing response carries no content. -/
def respInv (r : LLMResponse) : Prop := r.error ≠ none → r.content = ""

/-- One call to `record_request`, with the wall-clock values read during
that call, for replaying an arbitrary history against a `ProviderStats`. -/
structure StatsEvent where
  success : Bool
  latency : ℚ := 0
  cost : ℚ := 0
  nowTime : ℚ := 0
  today : Nat := 0
deriving DecidableEq

/-- Replay a sequence of `record_request` calls. -/
def applyEvents (evs : List StatsEvent) (st : ProviderStats) : ProviderStats :=
  evs.foldl (fun s e => s.record_request e.success e.latency e.cost e.nowTime e.today) st

/-! ## Helper lemmas -/

/-- A failed `record_request` ignores the latency and cost arguments: only
the request count, the recent-timestamp window, the failure count and the
day-reset bookkeeping change. -/
theorem record_request_false_eq (st : ProviderStats) (lat cost nt : ℚ) (td : Nat) :
    st.record_request false lat cost nt td = st.record_request false 0 0 nt td := by
  simp [ProviderStats.record_request]

/-- A failed `record_request` increments exactly the failure counter (and
the shared request counter). -/
theorem record_request_false_failures (st : ProviderStats) (lat cost nt : ℚ) (td : Nat) :
    (st.record_request false lat cost nt td).failures = st.failures + 1
    ∧ (st.record_request false lat cost nt td).requests = st.requests + 1
    ∧ (st.record_request false lat cost nt td).successes = st.successes := by
  simp [ProviderStats.record_request]
  split <;> simp

/-- A successful `record_request` increments exactly the success counter
(and the shared request counter). -/
theorem record_request_true_successes (st : ProviderStats) (lat cost nt : ℚ) (td : Nat) :
    (st.record_request true lat cost nt td).successes = st.successes + 1
    ∧ (st.record_request true lat cost nt td).requests = st.requests + 1
    ∧ (st.record_request true lat cost nt td).failures = st.failures := by
  simp [ProviderStats.record_request]
  split <;> simp

theorem updateStats_same (st : String → ProviderStats) (n : String)
    (f : ProviderStats → ProviderStats) : updateStats st n f n = f (st n) := by
  simp [updateStats]

theorem updateStats_other (st : String → ProviderStats) (n q : String)
    (f : ProviderStats → ProviderStats) (h : q ≠ n) : updateStats st n f q = st q := by
  simp [updateStats, h]

/-- Candidates that do not get attempted leave a provider's statistics
untouched: if `q` is not among the candidates, `q`'s stats survive the
whole fallback loop unchanged. -/
theorem generateGo_stats_of_not_mem (env : ManagerEnv)
    (behavior : String → AttemptResult) (nt : ℚ) (td : Nat) (rid : String) :
    ∀ (order : List String) (le : Option String) (st : String → ProviderStats)
      (q : String), q ∉ order →
      (generateGo env behavior nt td rid order le st).2 q = st q := by
  intro order
  induction order with
  | nil => intro le st q _; rfl
  | cons name rest ih =>
    intro le st q hq
    have hqname : q ≠ name := fun h => hq (h ▸ List.mem_cons_self name rest)
    have hqrest : q ∉ rest := fun h => hq (List.mem_cons_of_mem name h)
    unfold generateGo
    by_cases hreg : name ∉ env.providers
    · simp only [if_pos hreg]; exact ih le st q hqrest
    · simp only [if_neg hreg]
      by_cases hadm : canUseProvider (st name) (env.config_providers name) nt = false
      · simp only [if_pos hadm]; exact ih le st q hqrest
      · simp only [if_neg hadm]
        cases hb : behavior name with
        | resp r lat =>
          simp only
          by_cases hsucc : r.error.isNone
          · simp only [hsucc, if_pos]
            exact updateStats_other st name q _ hqname
          · simp only [hsucc]
            rw [if_neg Bool.false_ne_true]
            rw [ih r.error _ q hqrest]
            exact updateStats_other st name q _ hqname
        | exn msg =>
          simp only
          rw [ih (some msg) _ q hqrest]
          exact updateStats_other st name q _ hqname

/-- Unfolding equation of the fallback loop on an empty candidate list. -/
theorem generateGo_nil (env : ManagerEnv) (behavior : String → AttemptResult)
    (nt : ℚ) (td : Nat) (rid : String) (le : Option String)
    (st : String → ProviderStats) :
    generateGo env behavior nt td rid [] le st = (allFailedResponse rid le, st) := rfl

/-- Unfolding equation of the fallback loop on a cons candidate list. -/
theorem generateGo_cons (env : ManagerEnv) (behavior : String → AttemptResult)
    (nt : ℚ) (td : Nat) (rid : String) (name : String) (rest : List String)
    (le : Option String) (st : String → ProviderStats) :
    generateGo env behavior nt td rid (name :: rest) le st
      = if name ∉ env.providers then
          generateGo env behavior nt td rid rest le st
        else if canUseProvider (st name) (env.config_providers name) nt = false then
          generateGo env behavior nt td rid rest le st
        else
          match behavior name with
          | .resp r lat =>
            let st' := updateStats st name
              (fun s => s.record_request r.error.isNone lat (costOf r) nt td)
            if r.error.isNone then (r, st')
            else generateGo env behavior nt td rid rest r.error st'
          | .exn msg =>
            generateGo env behavior nt td rid rest (some msg)
              (updateStats st name (fun s => s.record_request false 0 0 nt td)) := rfl

/-- A block of candidates that are all unregistered or inadmissible is
skipped without touching the statistics or the remembered error. -/
theorem generateGo_skip_block (env : ManagerEnv)
    (behavior : String → AttemptResult) (nt : ℚ) (td : Nat) (rid : String) :
    ∀ (pre tail : List String) (le : Option String) (st : String → ProviderStats),
      (∀ q ∈ pre, q ∉ env.providers
        ∨ canUseProvider (st q) (env.config_providers q) nt = false) →
      generateGo env behavior nt td rid (pre ++ tail) le st
        = generateGo env behavior nt td rid tail le st := by
  intro pre
  induction pre with
  | nil => intro tail le st _; rfl
  | cons name pre ih =>
    intro tail le st hskip
    have hname := hskip name (List.mem_cons_self name pre)
    have hrest : ∀ q ∈ pre, q ∉ env.providers
        ∨ canUseProvider (st q) (env.config_providers q) nt = false :=
      fun q hq => hskip q (List.mem_cons_of_mem name hq)
    rw [List.cons_append, generateGo_cons]
    rcases hname with hreg | hadm
    · rw [if_pos hreg]; exact ih tail le st hrest
    · by_cases hreg : name ∉ env.providers
      · rw [if_pos hreg]; exact ih tail le st hrest
      · rw [if_neg hreg, if_pos hadm]; exact ih tail le st hrest

/-- When no adapter outcome is a success, the fallback loop always ends in
the "all providers failed" terminal response. -/
theorem generateGo_all_fail (env : ManagerEnv)
    (behavior : String → AttemptResult) (nt : ℚ) (td : Nat) (rid : String) :
    ∀ (order : List String), (∀ q ∈ order, outcomeError (behavior q) ≠ none) →
    ∀ (le : Option String) (st : String → ProviderStats),
      ∃ le', (generateGo env behavior nt td rid order le st).1
        = allFailedResponse rid le' := by
  intro order
  induction order with
  | nil => intro _ le st; exact ⟨le, rfl⟩
  | cons name rest ihx =>
    intro h
    have ih := ihx (fun q hq => h q (List.mem_cons_of_mem name hq))
    intro le st
    rw [generateGo_cons]
    by_cases hreg : name ∉ env.providers
    · rw [if_pos hreg]; exact ih le st
    · rw [if_neg hreg]
      by_cases hadm : canUseProvider (st name) (env.config_providers name) nt = false
      · rw [if_pos hadm]; exact ih le st
      · rw [if_neg hadm]
        cases hb : behavior name with
        | resp r lat =>
          have herr : r.error ≠ none := by
            have := h name (List.mem_cons_self name rest)
            rw [hb] at this
            exact this
          have hsucc : r.error.isNone = false := by
            cases hr : r.error with
            | none => exact absurd hr herr
            | some e => rfl
          simp only [hsucc]
          rw [if_neg Bool.false_ne_true]
          exact ih r.error _
        | exn msg => exact ih (some msg) _

/-- When no adapter outcome is a success and the order ends with an
attempted candidate whose error text is `e`, the terminal response quotes
`e` as the last error.  The earlier candidates may be skipped or fail; the
final candidate `p` must not recur earlier so that its statistics, and with
them its admission check, are still those of the initial state when its
turn comes. -/
theorem generateGo_last_error (env : ManagerEnv)
    (behavior : String → AttemptResult) (nt : ℚ) (td : Nat) (rid : String)
    (p : String) (e : String)
    (hp : p ∈ env.providers) (he : outcomeError (behavior p) = some e) :
    ∀ (before : List String),
      (∀ q ∈ before, outcomeError (behavior q) ≠ none) →
    ∀ (le : Option String) (st : String → ProviderStats),
      p ∉ before →
      canUseProvider (st p) (env.config_providers p) nt = true →
      (generateGo env behavior nt td rid (before ++ [p]) le st).1
        = allFailedResponse rid (some e) := by
  intro before
  induction before with
  | nil =>
    intro _ le st _ hadm
    rw [List.nil_append, generateGo_cons]
    rw [if_neg (by simp [hp])]
    rw [if_neg (by rw [hadm]; simp)]
    cases hb : behavior p with
    | resp r lat =>
      have hr : r.error = some e := by rw [hb] at he; exact he
      simp [hr, generateGo_nil]
    | exn msg =>
      have hm : msg = e := by
        rw [hb] at he
        exact Option.some_injective _ he
      simp [hm, generateGo_nil]
  | cons name before ihx =>
    intro h
    have ih := ihx (fun q hq => h q (List.mem_cons_of_mem name hq))
    intro le st hnp hadm
    have hpname : p ≠ name := fun hh => hnp (hh ▸ List.mem_cons_self name before)
    have hnp' : p ∉ before := fun hh => hnp (List.mem_cons_of_mem name hh)
    rw [List.cons_append, generateGo_cons]
    by_cases hreg : name ∉ env.providers
    · rw [if_pos hreg]; exact ih le st hnp' hadm
    · rw [if_neg hreg]
      by_cases hadm2 : canUseProvider (st name) (env.config_providers name) nt = false
      · rw [if_pos hadm2]; exact ih le st hnp' hadm
      · rw [if_neg hadm2]
        cases hb : behavior name with
        | resp r lat =>
          have herr : r.error ≠ none := by
            have := h name (List.mem_cons_self name before)
            rw [hb] at this; exact this
          have hsucc : r.error.isNone = false := by
            cases hr : r.error with
            | none => exact absurd hr herr
            | some e2 => rfl
          simp only [hsucc]
          rw [if_neg Bool.false_ne_true]
          refine ih r.error _ hnp' ?_
          rw [updateStats_other st name p _ hpname]
          exact hadm
        | exn msg =>
          refine ih (some msg) _ hnp' ?_
          rw [updateStats_other st name p _ hpname]
          exact hadm

/-- Replacing an adapter that raises an exception by an adapter that
returns the corresponding error response changes nothing observable: the
returned response and the entire statistics map agree, because a failed
`record_request` ignores latency and cost and the remembered error text is
the same. -/
theorem generateGo_exn_as_error_resp (env : ManagerEnv)
    (behavior : String → AttemptResult) (nt : ℚ) (td : Nat) (rid : String)
    (p msg : String) (lat : ℚ) (hb : behavior p = .exn msg) :
    ∀ (order : List String) (le : Option String) (st : String → ProviderStats),
      generateGo env behavior nt td rid order le st
        = generateGo env
            (fun q => if q = p then .resp (adapterErrorResponse rid p msg lat) lat
                      else behavior q)
            nt td rid order le st := by
  intro order
  induction order with
  | nil => intro le st; rfl
  | cons name rest ih =>
    intro le st
    rw [generateGo_cons, generateGo_cons]
    by_cases hreg : name ∉ env.providers
    · rw [if_pos hreg, if_pos hreg]; exact ih le st
    · rw [if_neg hreg, if_neg hreg]
      by_cases hadm : canUseProvider (st name) (env.config_providers name) nt = false
      · rw [if_pos hadm, if_pos hadm]; exact ih le st
      · rw [if_neg hadm, if_neg hadm]
        by_cases hname : name = p
        · subst hname
          rw [hb]
          have hcost : costOf (adapterErrorResponse rid name msg lat) = 0 := rfl
          have herr : (adapterErrorResponse rid name msg lat).error = some msg := rfl
          simp only [if_pos rfl, if_true, herr, Option.isNone_some, hcost]
          rw [if_neg Bool.false_ne_true]
          simp only [record_request_false_eq]
          exact ih (some msg) _
        · simp only [if_neg hname]
          cases hbn : behavior name with
          | resp r lat2 =>
            by_cases hsucc : r.error.isNone = true
            · dsimp only
              rw [if_pos hsucc, if_pos hsucc]
            · simp only [hsucc]
              rw [if_neg Bool.false_ne_true, if_neg Bool.false_ne_true]
              exact ih r.error _
          | exn m => exact ih (some m) _

/-- If every response an adapter can return satisfies the exclusivity
invariant, then so does the response of the fallback loop; moreover a
result without error is exactly some adapter's successful response. -/
theorem generateGo_respInv (env : ManagerEnv)
    (behavior : String → AttemptResult) (nt : ℚ) (td : Nat) (rid : String)
    (hb : ∀ p r lat, behavior p = .resp r lat → respInv r) :
    ∀ (order : List String) (le : Option String) (st : String → ProviderStats),
      respInv (generateGo env behavior nt td rid order le st).1
      ∧ ((generateGo env behavior nt td rid order le st).1.error = none →
          ∃ p r lat, p ∈ order ∧ behavior p = .resp r lat ∧ r.error = none
            ∧ (generateGo env behavior nt td rid order le st).1 = r) := by
  intro order
  induction order with
  | nil =>
    intro le st
    rw [generateGo_nil]
    constructor
    · intro _; rfl
    · intro hnone
      exact absurd hnone (by simp [allFailedResponse])
  | cons name rest ih =>
    intro le st
    rw [generateGo_cons]
    by_cases hreg : name ∉ env.providers
    · rw [if_pos hreg]
      refine ⟨(ih le st).1, fun hnone => ?_⟩
      obtain ⟨p, r, lat, hmem, h1, h2, h3⟩ := (ih le st).2 hnone
      exact ⟨p, r, lat, List.mem_cons_of_mem name hmem, h1, h2, h3⟩
    · rw [if_neg hreg]
      by_cases hadm : canUseProvider (st name) (env.config_providers name) nt = false
      · rw [if_pos hadm]
        refine ⟨(ih le st).1, fun hnone => ?_⟩
        obtain ⟨p, r, lat, hmem, h1, h2, h3⟩ := (ih le st).2 hnone
        exact ⟨p, r, lat, List.mem_cons_of_mem name hmem, h1, h2, h3⟩
      · rw [if_neg hadm]
        cases hbn : behavior name with
        | resp r lat =>
          by_cases hsucc : r.error.isNone = true
          · simp only [hsucc, if_pos]
            refine ⟨hb name r lat hbn, fun _ => ?_⟩
            exact ⟨name, r, lat, List.mem_cons_self name rest, hbn,
              Option.isNone_iff_eq_none.mp hsucc, rfl⟩
          · simp only [hsucc]
            rw [if_neg Bool.false_ne_true]
            refine ⟨(ih r.error _).1, fun hnone => ?_⟩
            obtain ⟨p, r2, lat2, hmem, h1, h2, h3⟩ := (ih r.error _).2 hnone
            exact ⟨p, r2, lat2, List.mem_cons_of_mem name hmem, h1, h2, h3⟩
        | exn m =>
          refine ⟨(ih (some m) _).1, fun hnone => ?_⟩
          obtain ⟨p, r2, lat2, hmem, h1, h2, h3⟩ := (ih (some m) _).2 hnone
          exact ⟨p, r2, lat2, List.mem_cons_of_mem name hmem, h1, h2, h3⟩

/-- A provider that is inadmissible in the initial state is never attempted
in the whole fallback run: its statistics never change (no other candidate's
attempt touches them, so its admission check keeps failing). -/
theorem generateGo_never_attempted (env : ManagerEnv)
    (behavior : String → AttemptResult) (nt : ℚ) (td : Nat) (rid : String)
    (p : String) :
    ∀ (order : List String) (le : Option String) (st : String → ProviderStats),
      canUseProvider (st p) (env.config_providers p) nt = false →
      (generateGo env behavior nt td rid order le st).2 p = st p := by
  intro order
  induction order with
  | nil => intro le st _; rfl
  | cons name rest ih =>
    intro le st hbad
    rw [generateGo_cons]
    by_cases hreg : name ∉ env.providers
    · rw [if_pos hreg]; exact ih le st hbad
    · rw [if_neg hreg]
      by_cases hname : name = p
      · subst hname
        rw [if_pos hbad]
        exact ih le st hbad
      · by_cases hadm : canUseProvider (st name) (env.config_providers name) nt = false
        · rw [if_pos hadm]; exact ih le st hbad
        · rw [if_neg hadm]
          have hpname : p ≠ name := fun hh => hname hh.symm
          cases hbn : behavior name with
          | resp r lat =>
            by_cases hsucc : r.error.isNone = true
            · simp only [hsucc, if_pos]
              exact updateStats_other st name p _ hpname
            · simp only [hsucc]
              rw [if_neg Bool.false_ne_true]
              rw [ih r.error _ (by rw [updateStats_other st name p _ hpname]; exact hbad)]
              exact updateStats_other st name p _ hpname
          | exn m =>
            rw [ih (some m) _ (by rw [updateStats_other st name p _ hpname]; exact hbad)]
            exact updateStats_other st name p _ hpname

/-! ### Streaming lemmas -/

theorem emitUntilFinal_nil : emitUntilFinal [] = ([], none) := rfl

theorem emitUntilFinal_cons (d : LLMStreamChunk) (cs : List LLMStreamChunk) :
    emitUntilFinal (d :: cs)
      = if d.is_final then ([d], some d)
        else (d :: (emitUntilFinal cs).1, (emitUntilFinal cs).2) := rfl

/-- When the inner loop reaches a terminal chunk, the emitted chunks are a
non-final prefix followed by exactly that terminal chunk. -/
theorem emitUntilFinal_some :
    ∀ (cs em : List LLMStreamChunk) (c : LLMStreamChunk),
      emitUntilFinal cs = (em, some c) →
      c.is_final = true ∧ ∃ pre, em = pre ++ [c] ∧ ∀ d ∈ pre, d.is_final = false := by
  intro cs
  induction cs with
  | nil =>
    intro em c h
    rw [emitUntilFinal_nil] at h
    exact absurd h (by simp)
  | cons d cs ih =>
    intro em c h
    rw [emitUntilFinal_cons] at h
    by_cases hf : d.is_final
    · rw [if_pos hf] at h
      simp only [Prod.mk.injEq, Option.some.injEq] at h
      obtain ⟨h1, h2⟩ := h
      subst h1; subst h2
      exact ⟨hf, [], rfl, by intro d hd; exact absurd hd (List.not_mem_nil d)⟩
    · rw [if_neg hf] at h
      simp only [Prod.mk.injEq] at h
      obtain ⟨h1, h2⟩ := h
      have hcs : emitUntilFinal cs = ((emitUntilFinal cs).1, some c) := by
        rw [← h2]
      obtain ⟨hfin, pre, hpre, hnf⟩ := ih (emitUntilFinal cs).1 c hcs
      refine ⟨hfin, d :: pre, ?_, ?_⟩
      · rw [← h1, hpre]; rfl
      · intro e he
        rcases List.mem_cons.mp he with he | he
        · subst he; rw [Bool.not_eq_true] at hf; exact hf
        · exact hnf e he

/-- When the inner loop never sees a terminal chunk, it emits the whole
stream unchanged and every emitted chunk is non-final. -/
theorem emitUntilFinal_none :
    ∀ (cs em : List LLMStreamChunk),
      emitUntilFinal cs = (em, none) →
      em = cs ∧ ∀ d ∈ cs, d.is_final = false := by
  intro cs
  induction cs with
  | nil =>
    intro em h
    rw [emitUntilFinal_nil] at h
    simp only [Prod.mk.injEq] at h
    exact ⟨h.1.symm, by intro d hd; exact absurd hd (List.not_mem_nil d)⟩
  | cons d cs ih =>
    intro em h
    rw [emitUntilFinal_cons] at h
    by_cases hf : d.is_final
    · rw [if_pos hf] at h
      simp only [Prod.mk.injEq] at h
      exact absurd h.2 (by simp)
    · rw [if_neg hf] at h
      simp only [Prod.mk.injEq] at h
      obtain ⟨h1, h2⟩ := h
      have hcs : emitUntilFinal cs = ((emitUntilFinal cs).1, none) := by rw [← h2]
      obtain ⟨he, hnf⟩ := ih (emitUntilFinal cs).1 hcs
      refine ⟨by rw [← h1, he], ?_⟩
      intro e hee
      rcases List.mem_cons.mp hee with hee | hee
      · subst hee; rw [Bool.not_eq_true] at hf; exact hf
      · exact hnf e hee

theorem streamGo_nil (env : ManagerEnv) (sb : String → StreamBehavior)
    (slat : String → ℚ) (nt : ℚ) (td : Nat) (rid : String)
    (st : String → ProviderStats) :
    streamGo env sb slat nt td rid [] st = ([allFailedChunk rid], st) := rfl

theorem streamGo_cons (env : ManagerEnv) (sb : String → StreamBehavior)
    (slat : String → ℚ) (nt : ℚ) (td : Nat) (rid : String)
    (name : String) (rest : List String) (st : String → ProviderStats) :
    streamGo env sb slat nt td rid (name :: rest) st
      = if name ∉ env.providers then streamGo env sb slat nt td rid rest st
        else if canUseProvider (st name) (env.config_providers name) nt = false then
          streamGo env sb slat nt td rid rest st
        else
          match sb name with
          | .yields cs =>
            match emitUntilFinal cs with
            | (em, some c) =>
              (em, updateStats st name
                (fun s => s.record_request c.metaError.isNone (slat name) 0 nt td))
            | (em, none) =>
              let r := streamGo env sb slat nt td rid rest st
              (em ++ r.1, r.2)
          | .yieldsThenRaises cs _ =>
            match emitUntilFinal cs with
            | (em, some c) =>
              (em, updateStats st name
                (fun s => s.record_request c.metaError.isNone (slat name) 0 nt td))
            | (em, none) =>
              let st2 := updateStats st name
                (fun s => s.record_request false 0 0 nt td)
              let r := streamGo env sb slat nt td rid rest st2
              (em ++ r.1, r.2) := rfl

/-- Every streaming call emits a non-empty chunk sequence consisting of
non-final chunks followed by exactly one final chunk at the very end. -/
theorem streamGo_shape (env : ManagerEnv) (sb : String → StreamBehavior)
    (slat : String → ℚ) (nt : ℚ) (td : Nat) (rid : String) :
    ∀ (order : List String) (st : String → ProviderStats),
      ∃ pre c, (streamGo env sb slat nt td rid order st).1 = pre ++ [c]
        ∧ c.is_final = true ∧ ∀ d ∈ pre, d.is_final = false := by
  intro order
  induction order with
  | nil =>
    intro st
    rw [streamGo_nil]
    exact ⟨[], allFailedChunk rid, rfl, rfl,
      by intro d hd; exact absurd hd (List.not_mem_nil d)⟩
  | cons name rest ih =>
    intro st
    rw [streamGo_cons]
    by_cases hreg : name ∉ env.providers
    · rw [if_pos hreg]; exact ih st
    · rw [if_neg hreg]
      by_cases hadm : canUseProvider (st name) (env.config_providers name) nt = false
      · rw [if_pos hadm]; exact ih st
      · rw [if_neg hadm]
        cases hsb : sb name with
        | yields cs =>
          dsimp only
          cases he : emitUntilFinal cs with
          | mk em tc =>
            cases tc with
            | some c =>
              dsimp only
              obtain ⟨hfin, pre, hpre, hnf⟩ := emitUntilFinal_some cs em c he
              exact ⟨pre, c, by rw [hpre], hfin, hnf⟩
            | none =>
              dsimp only
              obtain ⟨hem, hnf⟩ := emitUntilFinal_none cs em he
              obtain ⟨pre, c, hsh, hfin, hnf2⟩ := ih st
              refine ⟨em ++ pre, c, ?_, hfin, ?_⟩
              · simp only [hsh, List.append_assoc]
              · intro d hd
                rcases List.mem_append.mp hd with hd | hd
                · exact hnf d (hem ▸ hd)
                · exact hnf2 d hd
        | yieldsThenRaises cs m =>
          dsimp only
          cases he : emitUntilFinal cs with
          | mk em tc =>
            cases tc with
            | some c =>
              dsimp only
              obtain ⟨hfin, pre, hpre, hnf⟩ := emitUntilFinal_some cs em c he
              exact ⟨pre, c, by rw [hpre], hfin, hnf⟩
            | none =>
              dsimp only
              obtain ⟨hem, hnf⟩ := emitUntilFinal_none cs em he
              obtain ⟨pre, c, hsh, hfin, hnf2⟩ :=
                ih (updateStats st name (fun s => s.record_request false 0 0 nt td))
              refine ⟨em ++ pre, c, ?_, hfin, ?_⟩
              · simp only [hsh, List.append_assoc]
              · intro d hd
                rcases List.mem_append.mp hd with hd | hd
                · exact hnf d (hem ▸ hd)
                · exact hnf2 d hd

/-- Candidates not in the order leave a provider's streaming statistics
untouched. -/
theorem streamGo_stats_of_not_mem (env : ManagerEnv)
    (sb : String → StreamBehavior) (slat : String → ℚ) (nt : ℚ) (td : Nat)
    (rid : String) :
    ∀ (order : List String) (st : String → ProviderStats) (q : String),
      q ∉ order → (streamGo env sb slat nt td rid order st).2 q = st q := by
  intro order
  induction order with
  | nil => intro st q _; rfl
  | cons name rest ih =>
    intro st q hq
    have hqname : q ≠ name := fun h => hq (h ▸ List.mem_cons_self name rest)
    have hqrest : q ∉ rest := fun h => hq (List.mem_cons_of_mem name h)
    rw [streamGo_cons]
    by_cases hreg : name ∉ env.providers
    · rw [if_pos hreg]; exact ih st q hqrest
    · rw [if_neg hreg]
      by_cases hadm : canUseProvider (st name) (env.config_providers name) nt = false
      · rw [if_pos hadm]; exact ih st q hqrest
      · rw [if_neg hadm]
        cases hsb : sb name with
        | yields cs =>
          dsimp only
          cases he : emitUntilFinal cs with
          | mk em tc =>
            cases tc with
            | some c => dsimp only; exact updateStats_other st name q _ hqname
            | none => dsimp only; exact ih st q hqrest
        | yieldsThenRaises cs m =>
          dsimp only
          cases he : emitUntilFinal cs with
          | mk em tc =>
            cases tc with
            | some c => dsimp only; exact updateStats_other st name q _ hqname
            | none =>
              dsimp only
              rw [ih _ q hqrest]
              exact updateStats_other st name q _ hqname

/-! ### Ordering lemmas for the load-balanced sort -/

/-- Two distinct members of a list occur in one order or the other. -/
theorem pair_sublist_of_mem {α : Type} {l : List α} {a b : α}
    (hne : a ≠ b) (ha : a ∈ l) (hb : b ∈ l) :
    [a, b].Sublist l ∨ [b, a].Sublist l := by
  induction l with
  | nil => exact absurd ha (List.not_mem_nil a)
  | cons x t ih =>
    rcases List.mem_cons.mp ha with hax | ha'
    · subst hax
      rcases List.mem_cons.mp hb with hbx | hb'
      · exact absurd hbx.symm hne
      · exact Or.inl (List.Sublist.cons₂ a (List.singleton_sublist.mpr hb'))
    · rcases List.mem_cons.mp hb with hbx | hb'
      · subst hbx
        exact Or.inr (List.Sublist.cons₂ b (List.singleton_sublist.mpr ha'))
      · rcases ih ha' hb' with h | h
        · exact Or.inl (List.Sublist.cons x h)
        · exact Or.inr (List.Sublist.cons x h)

theorem scoreDescLe_trans (a b c : ℚ × ℚ × String)
    (h1 : scoreDescLe a b = true) (h2 : scoreDescLe b c = true) :
    scoreDescLe a c = true := by
  simp only [scoreDescLe, Bool.or_eq_true, Bool.and_eq_true, decide_eq_true_eq] at *
  rcases h1 with h1 | ⟨h1e, h1s⟩ <;> rcases h2 with h2 | ⟨h2e, h2s⟩
  · exact Or.inl (h2.trans h1)
  · exact Or.inl (h2e ▸ h1)
  · exact Or.inl (h1e ▸ h2)
  · exact Or.inr ⟨h1e.trans h2e, h2s.trans h1s⟩

theorem scoreDescLe_total (a b : ℚ × ℚ × String) :
    (scoreDescLe a b || scoreDescLe b a) = true := by
  simp only [scoreDescLe, Bool.or_eq_true, Bool.and_eq_true, decide_eq_true_eq]
  rcases lt_trichotomy a.1 b.1 with h | h | h
  · exact Or.inr (Or.inl h)
  · rcases le_total a.2.1 b.2.1 with hs | hs
    · exact Or.inr (Or.inr ⟨h.symm, hs⟩)
    · exact Or.inl (Or.inr ⟨h, hs⟩)
  · exact Or.inl (Or.inl h)

/-- A strictly better load-balancing score places a provider strictly
earlier in the load-balanced order, whatever the random tiebreaks are. -/
theorem loadBalanced_order_of_score_gt (env : ManagerEnv)
    (stats : String → ProviderStats) (nt : ℚ) (tb : String → ℚ)
    (provs : List String) (a b : String)
    (ha : a ∈ provs) (hb : b ∈ provs) (hne : a ≠ b)
    (hgt : providerScore (stats b) (env.config_providers b) nt
      < providerScore (stats a) (env.config_providers a) nt) :
    [a, b].Sublist (getLoadBalancedOrder env stats nt tb provs) := by
  classical
  set f : String → ℚ × ℚ × String :=
    fun p => (providerScore (stats p) (env.config_providers p) nt, tb p, p) with hf
  have hfa : f a ∈ provs.map f := List.mem_map_of_mem f ha
  have hfb : f b ∈ provs.map f := List.mem_map_of_mem f hb
  have hperm := List.mergeSort_perm (provs.map f) scoreDescLe
  have hsa : f a ∈ (provs.map f).mergeSort scoreDescLe := hperm.mem_iff.mpr hfa
  have hsb : f b ∈ (provs.map f).mergeSort scoreDescLe := hperm.mem_iff.mpr hfb
  have hfne : f a ≠ f b := by
    intro hcontra
    exact hne (congrArg (fun x => x.2.2) hcontra)
  have hpair := pair_sublist_of_mem hfne hsa hsb
  have hsorted : ((provs.map f).mergeSort scoreDescLe).Pairwise
      (fun x y => scoreDescLe x y = true) :=
    List.sorted_mergeSort scoreDescLe_trans scoreDescLe_total (provs.map f)
  rcases hpair with hgood | hbad
  · have : [a, b] = [f a, f b].map (fun x => x.2.2) := rfl
    rw [this]
    unfold getLoadBalancedOrder
    exact List.Sublist.map (fun x => x.2.2) hgood
  · exfalso
    have hle : scoreDescLe (f b) (f a) = true :=
      List.rel_of_pairwise_cons (List.Pairwise.sublist hbad hsorted)
        (List.mem_singleton.mpr rfl)
    simp only [scoreDescLe, Bool.or_eq_true, Bool.and_eq_true, decide_eq_true_eq, hf] at hle
    rcases hle with hlt | ⟨heq, _⟩
    · exact absurd hgt (not_lt.mpr (le_of_lt hlt))
    · exact absurd hgt (not_lt.mpr (le_of_eq heq.symm))

/-! ### Counter lemmas for the statistics tracker -/

/-- One `record_request` call preserves the counter balance
`requests = successes + failures`. -/
theorem record_request_counts (st : ProviderStats) (success : Bool)
    (lat cost nt : ℚ) (td : Nat)
    (h : st.requests = st.successes + st.failures) :
    (st.record_request success lat cost nt td).requests
      = (st.record_request success lat cost nt td).successes
        + (st.record_request success lat cost nt td).failures := by
  unfold ProviderStats.record_request
  cases success <;> split <;> simp <;> omega

/-- The counter balance is preserved by any replayed history. -/
theorem applyEvents_counts (evs : List StatsEvent) :
    ∀ st : ProviderStats, st.requests = st.successes + st.failures →
      (applyEvents evs st).requests
        = (applyEvents evs st).successes + (applyEvents evs st).failures := by
  induction evs with
  | nil => intro st h; exact h
  | cons e evs ih =>
    intro st h
    exact ih _ (record_request_counts st e.success e.latency e.cost e.nowTime e.today h)

/-- The derived success rate of any balanced counter state lies in the unit
interval and is one for an untested provider. -/
theorem success_rate_bounds (st : ProviderStats)
    (h : st.requests = st.successes + st.failures) :
    0 ≤ st.success_rate ∧ st.success_rate ≤ 1
      ∧ (st.requests = 0 → st.success_rate = 1) := by
  unfold ProviderStats.success_rate
  by_cases h0 : st.requests = 0
  · simp [h0]
  · rw [if_neg h0]
    have hpos : 0 < (st.requests : ℚ) :=
      Nat.cast_pos.mpr (Nat.pos_of_ne_zero h0)
    refine ⟨div_nonneg (Nat.cast_nonneg _) (le_of_lt hpos), ?_, fun hh => absurd hh h0⟩
    rw [div_le_one hpos]
    exact Nat.cast_le.mpr (by omega)

/-! ## Claims -/

/-- C7: when a `ProviderStats` whose `last_reset` date lies strictly before
the current date and whose `daily_cost` is nonzero next records a request,
the day-cost counter is zeroed (and `last_reset` advanced to the current
date) before the new cost is accumulated, so after a successful call the
daily cost equals exactly the new cost; after a failed call it is zero. -/
theorem claim_C7 (st : ProviderStats) (lat cost nt : ℚ) (td : Nat)
    (h1 : st.last_reset < td) (_h2 : st.daily_cost ≠ 0) :
    (st.record_request true lat cost nt td).daily_cost = cost
    ∧ (st.record_request true lat cost nt td).last_reset = td
    ∧ (st.record_request false lat cost nt td).daily_cost = 0
    ∧ (st.record_request false lat cost nt td).last_reset = td := by
  unfold ProviderStats.record_request
  rw [if_pos h1]
  simp

/-- Witness for C7 at a concrete stats value: `last_reset` yesterday (day
5 versus day 6) and a nonzero accumulated daily cost of 3. -/
theorem claim_C7_witness :
    ({ last_reset := 5, daily_cost := 3 } : ProviderStats).last_reset < 6
    ∧ ({ last_reset := 5, daily_cost := 3 } : ProviderStats).daily_cost ≠ 0
    ∧ (({ last_reset := 5, daily_cost := 3 } : ProviderStats).record_request
        true 7 2 100 6).daily_cost = 2 :=
  ⟨by decide, by decide,
    (claim_C7 { last_reset := 5, daily_cost := 3 } 7 2 100 6
      (by decide) (by decide)).1⟩

/-- C10: replaying any finite history of `record_request` calls from a
fresh `ProviderStats` preserves `requests = successes + failures`, and the
derived `success_rate` always lies in the closed unit interval, taking the
defined value 1 when no requests were recorded. -/
theorem claim_C10 (evs : List StatsEvent) (td0 : Nat) :
    (applyEvents evs (freshStats td0)).requests
      = (applyEvents evs (freshStats td0)).successes
        + (applyEvents evs (freshStats td0)).failures
    ∧ 0 ≤ (applyEvents evs (freshStats td0)).success_rate
    ∧ (applyEvents evs (freshStats td0)).success_rate ≤ 1
    ∧ ((applyEvents evs (freshStats td0)).requests = 0 →
        (applyEvents evs (freshStats td0)).success_rate = 1) := by
  have hc := applyEvents_counts evs (freshStats td0) rfl
  have hb := success_rate_bounds _ hc
  exact ⟨hc, hb.1, hb.2.1, hb.2.2⟩

/-- C9: every response the modelled adapters construct satisfies the
exclusivity invariant (error set implies empty content), the manager's
sentinel responses satisfy it, the manager's result satisfies it whenever
the adapters' responses do, and the result carries no error exactly when
some candidate's attempt returned a response without error — which is the
response returned (the manager treats an attempt as successful exactly when
`error is None`). -/
theorem claim_C9 (env : ManagerEnv) (behavior : String → AttemptResult)
    (nt : ℚ) (td : Nat) (rid : String)
    (hb : ∀ p r lat, behavior p = .resp r lat → respInv r)
    (order : List String) (le : Option String) (st : String → ProviderStats) :
    (∀ p msg lat, respInv (adapterErrorResponse rid p msg lat))
    ∧ (∀ le2, respInv (allFailedResponse rid le2))
    ∧ respInv (noProvidersResponse rid)
    ∧ respInv (generateGo env behavior nt td rid order le st).1
    ∧ ((generateGo env behavior nt td rid order le st).1.error = none ↔
        ∃ p r lat, p ∈ order ∧ behavior p = .resp r lat ∧ r.error = none
          ∧ (generateGo env behavior nt td rid order le st).1 = r) := by
  obtain ⟨hinv, hsucc⟩ := generateGo_respInv env behavior nt td rid hb order le st
  refine ⟨fun p msg lat _ => rfl, fun le2 _ => rfl, fun _ => rfl, hinv, hsucc, ?_⟩
  rintro ⟨p, r, lat, _, _, herr, hres⟩
  rw [hres]
  exact herr

/-- Witness for C9: a single registered provider whose adapter returns an
error response with empty content; the manager's result then satisfies the
exclusivity invariant. -/
theorem claim_C9_witness :
    (∀ p r lat,
      (fun _ : String =>
        AttemptResult.resp { request_id := "r", provider := "alpha", error := some "401" } 1) p
          = AttemptResult.resp r lat → respInv r)
    ∧ respInv (generateGo
        { providers := ["alpha"], config_providers := fun n => { name := n },
          load_balancing := false, fallback_order := [] }
        (fun _ =>
          AttemptResult.resp { request_id := "r", provider := "alpha", error := some "401" } 1)
        0 0 "r" ["alpha"] none (fun _ => freshStats 0)).1 :=
  have hb : ∀ p r lat,
      (fun _ : String =>
        AttemptResult.resp { request_id := "r", provider := "alpha", error := some "401" } 1) p
          = AttemptResult.resp r lat → respInv r := by
    intro p r lat h
    cases h
    intro _
    rfl
  ⟨hb,
    (claim_C9
      { providers := ["alpha"], config_providers := fun n => { name := n },
        load_balancing := false, fallback_order := [] }
      (fun _ =>
        AttemptResult.resp { request_id := "r", provider := "alpha", error := some "401" } 1)
      0 0 "r" hb ["alpha"] none (fun _ => freshStats 0)).2.2.2.1⟩

/-- C1: for a well-formed request (non-empty message list) and any adapter
behaviour, `LLMManager.generate` is a total function into responses (the
embedding is total, so no exception crosses the manager boundary), and an
adapter exception is handled exactly like a returned error response: the
manager's result and the whole statistics map are unchanged when the raising
adapter is replaced by one returning the corresponding error response (the
failure is recorded, the message remembered), and at the moment such a
provider is attempted the loop records a failed attempt and falls through
to the next candidate carrying the exception text. -/
theorem claim_C1 (env : ManagerEnv) (behavior : String → AttemptResult)
    (nt : ℚ) (td : Nat) (req : LLMRequest) (_hwf : req.messages ≠ [])
    (isInit initOk : Bool) (pref : Option String) (tb : String → ℚ)
    (st : String → ProviderStats) (p msg : String) (lat : ℚ)
    (hb : behavior p = .exn msg) :
    LLMManager.generate env behavior nt td req.request_id isInit initOk pref tb st
      = LLMManager.generate env
          (fun q => if q = p then
            .resp (adapterErrorResponse req.request_id p msg lat) lat
          else behavior q)
          nt td req.request_id isInit initOk pref tb st
    ∧ ∀ (rest : List String) (le : Option String) (st2 : String → ProviderStats),
        p ∈ env.providers →
        canUseProvider (st2 p) (env.config_providers p) nt = true →
        generateGo env behavior nt td req.request_id (p :: rest) le st2
          = generateGo env behavior nt td req.request_id rest (some msg)
              (updateStats st2 p (fun s => s.record_request false 0 0 nt td)) := by
  constructor
  · unfold LLMManager.generate
    by_cases hinit : isInit = false ∧ initOk = false
    · rw [if_pos hinit, if_pos hinit]
    · rw [if_neg hinit, if_neg hinit]
      exact generateGo_exn_as_error_resp env behavior nt td req.request_id
        p msg lat hb _ none st
  · intro rest le st2 hreg hadm
    rw [generateGo_cons]
    rw [if_neg (by simp [hreg])]
    rw [if_neg (by rw [hadm]; simp)]
    rw [hb]

/-- Witness for C1: one registered provider "alpha" whose adapter raises;
replacing the exception by the matching error response leaves the call's
result and statistics unchanged. -/
theorem claim_C1_witness :
    ({ request_id := "r1", messages := [{ role := "user", content := "hi" }] }
        : LLMRequest).messages ≠ []
    ∧ (fun _ : String => AttemptResult.exn "boom") "alpha" = AttemptResult.exn "boom"
    ∧ LLMManager.generate
        { providers := ["alpha"], config_providers := fun n => { name := n },
          load_balancing := false, fallback_order := ["alpha"] }
        (fun _ => AttemptResult.exn "boom") 0 0
        ({ request_id := "r1", messages := [{ role := "user", content := "hi" }] }
          : LLMRequest).request_id
        true true none (fun _ => 0) (fun _ => freshStats 0)
      = LLMManager.generate
          { providers := ["alpha"], config_providers := fun n => { name := n },
            load_balancing := false, fallback_order := ["alpha"] }
          (fun q => if q = "alpha" then
            .resp (adapterErrorResponse
              ({ request_id := "r1",
                 messages := [{ role := "user", content := "hi" }] }
                : LLMRequest).request_id "alpha" "boom" 5) 5
          else (fun _ : String => AttemptResult.exn "boom") q)
          0 0
          ({ request_id := "r1", messages := [{ role := "user", content := "hi" }] }
            : LLMRequest).request_id
          true true none (fun _ => 0) (fun _ => freshStats 0) :=
  ⟨by decide, rfl,
    (claim_C1
      { providers := ["alpha"], config_providers := fun n => { name := n },
        load_balancing := false, fallback_order := ["alpha"] }
      (fun _ => AttemptResult.exn "boom") 0 0
      { request_id := "r1", messages := [{ role := "user", content := "hi" }] }
      (by decide) true true none (fun _ => 0) (fun _ => freshStats 0)
      "alpha" "boom" 5 rfl).1⟩

/-- C2: with any block of skipped candidates in front, the first admissible
registered candidate is attempted; if its response has no error it is
returned immediately with its success recorded and no later candidate's
statistics touched (short-circuit); if its response carries an error, the
loop records the failure in that provider's statistics, remembers the error
text and continues with exactly the remaining candidates. -/
theorem claim_C2 (env : ManagerEnv) (behavior : String → AttemptResult)
    (nt : ℚ) (td : Nat) (rid : String) (pre rest : List String) (p : String)
    (le : Option String) (st : String → ProviderStats)
    (hpre : ∀ q ∈ pre, q ∉ env.providers
      ∨ canUseProvider (st q) (env.config_providers q) nt = false)
    (hp : p ∈ env.providers)
    (hadm : canUseProvider (st p) (env.config_providers p) nt = true) :
    (∀ r lat, behavior p = .resp r lat → r.error = none →
      generateGo env behavior nt td rid (pre ++ p :: rest) le st
        = (r, updateStats st p (fun s => s.record_request true lat (costOf r) nt td))
      ∧ ∀ q, q ≠ p →
          (generateGo env behavior nt td rid (pre ++ p :: rest) le st).2 q = st q)
    ∧ (∀ r lat e, behavior p = .resp r lat → r.error = some e →
      generateGo env behavior nt td rid (pre ++ p :: rest) le st
        = generateGo env behavior nt td rid rest (some e)
            (updateStats st p (fun s => s.record_request false lat (costOf r) nt td)))
    ∧ (∀ s lat cost,
        (ProviderStats.record_request s false lat cost nt td).failures = s.failures + 1
        ∧ (ProviderStats.record_request s true lat cost nt td).successes
            = s.successes + 1) := by
  have hblock := generateGo_skip_block env behavior nt td rid pre (p :: rest) le st hpre
  refine ⟨?_, ?_, ?_⟩
  · intro r lat hbr herr
    have hmain : generateGo env behavior nt td rid (pre ++ p :: rest) le st
        = (r, updateStats st p
            (fun s => s.record_request true lat (costOf r) nt td)) := by
      rw [hblock, generateGo_cons]
      rw [if_neg (by simp [hp])]
      rw [if_neg (by rw [hadm]; simp)]
      rw [hbr]
      simp only [herr, Option.isNone_none, if_true]
    refine ⟨hmain, fun q hq => ?_⟩
    rw [hmain]
    dsimp only
    exact updateStats_other st p q _ hq
  · intro r lat e hbr herr
    rw [hblock, generateGo_cons]
    rw [if_neg (by simp [hp])]
    rw [if_neg (by rw [hadm]; simp)]
    rw [hbr]
    simp only [herr, Option.isNone_some]
    rw [if_neg Bool.false_ne_true]
  · intro s lat cost
    exact ⟨(record_request_false_failures s lat cost nt td).1,
      (record_request_true_successes s lat cost nt td).1⟩

/-- Witness for C2: skipped unregistered candidate "zeta", then "alpha"
succeeding; the call returns alpha's response with its success recorded and
beta's statistics untouched. -/
theorem claim_C2_witness :
    (∀ q ∈ ["zeta"], q ∉ (["alpha", "beta"] : List String)
      ∨ canUseProvider (freshStats 0) { name := q } 0 = false)
    ∧ "alpha" ∈ (["alpha", "beta"] : List String)
    ∧ canUseProvider (freshStats 0) { name := "alpha" } 0 = true
    ∧ generateGo
        { providers := ["alpha", "beta"], config_providers := fun n => { name := n },
          load_balancing := false, fallback_order := [] }
        (fun _ =>
          AttemptResult.resp { request_id := "r", content := "hi", provider := "alpha" } 3)
        0 0 "r" (["zeta"] ++ ["alpha"] ++ ["beta"]) none
        (fun _ => freshStats 0)
      = ({ request_id := "r", content := "hi", provider := "alpha" },
          updateStats (fun _ => freshStats 0) "alpha"
            (fun s => s.record_request true 3
              (costOf { request_id := "r", content := "hi", provider := "alpha" }) 0 0)) := by
  refine ⟨by decide, by decide, by decide, ?_⟩
  exact ((claim_C2
    { providers := ["alpha", "beta"], config_providers := fun n => { name := n },
      load_balancing := false, fallback_order := [] }
    (fun _ =>
      AttemptResult.resp { request_id := "r", content := "hi", provider := "alpha" } 3)
    0 0 "r" ["zeta"] ["beta"] "alpha" none
    (fun _ => freshStats 0) (by decide) (by decide) (by decide)).1
    { request_id := "r", content := "hi", provider := "alpha" } 3 rfl rfl).1

/-- C4: when every candidate's attempt outcome carries an error (so each
candidate is either skipped by admission control or fails), the fallback
loop returns the sentinel response: provider "failed" and a non-empty error
string; and when the last candidate is registered, admissible, not repeated
earlier, and fails with error text `e`, the terminal error string quotes
exactly `e` as the last observed failure. -/
theorem claim_C4 (env : ManagerEnv) (behavior : String → AttemptResult)
    (nt : ℚ) (td : Nat) (rid : String) (order : List String)
    (le : Option String) (st : String → ProviderStats)
    (h : ∀ q ∈ order, outcomeError (behavior q) ≠ none) :
    (∃ le2, (generateGo env behavior nt td rid order le st).1
      = allFailedResponse rid le2)
    ∧ (generateGo env behavior nt td rid order le st).1.provider = "failed"
    ∧ (∃ msg, (generateGo env behavior nt td rid order le st).1.error = some msg
        ∧ msg ≠ "")
    ∧ (∀ (before : List String) (p e : String),
        order = before ++ [p] → p ∉ before → p ∈ env.providers →
        canUseProvider (st p) (env.config_providers p) nt = true →
        outcomeError (behavior p) = some e →
        (generateGo env behavior nt td rid order le st).1.error
          = some ("All providers failed. Last error: " ++ e)) := by
  obtain ⟨le2, h1⟩ := generateGo_all_fail env behavior nt td rid order h le st
  refine ⟨⟨le2, h1⟩, by rw [h1]; rfl, ?_, ?_⟩
  · refine ⟨"All providers failed. Last error: " ++ pyStr le2, by rw [h1]; rfl, ?_⟩
    intro hcontra
    have := congrArg String.length hcontra
    simp [String.length_append] at this
    exact absurd this.1 (by decide)
  · intro before p e horder hnp hp hadm he
    have := generateGo_last_error env behavior nt td rid p e hp he before
      (fun q hq => h q (by rw [horder]; exact List.mem_append_left [p] hq))
      le st hnp hadm
    rw [horder, this]
    rfl

/-- Witness for C4: two registered admissible providers, alpha raising and
beta returning an error response with text "quota"; the result is the
sentinel carrying beta's error as the last failure. -/
theorem claim_C4_witness :
    (∀ q ∈ (["alpha", "beta"] : List String),
      outcomeError ((fun n => if n = "beta" then
        AttemptResult.resp { request_id := "r", provider := "beta", error := some "quota" } 2
      else AttemptResult.exn "down") q) ≠ none)
    ∧ (generateGo
        { providers := ["alpha", "beta"], config_providers := fun n => { name := n },
          load_balancing := false, fallback_order := [] }
        (fun n => if n = "beta" then
          AttemptResult.resp { request_id := "r", provider := "beta", error := some "quota" } 2
        else AttemptResult.exn "down")
        0 0 "r" ["alpha", "beta"] none (fun _ => freshStats 0)).1.provider = "failed"
    ∧ (generateGo
        { providers := ["alpha", "beta"], config_providers := fun n => { name := n },
          load_balancing := false, fallback_order := [] }
        (fun n => if n = "beta" then
          AttemptResult.resp { request_id := "r", provider := "beta", error := some "quota" } 2
        else AttemptResult.exn "down")
        0 0 "r" ["alpha", "beta"] none (fun _ => freshStats 0)).1.error
      = some ("All providers failed. Last error: " ++ "quota") := by
  have hc := claim_C4
    { providers := ["alpha", "beta"], config_providers := fun n => { name := n },
      load_balancing := false, fallback_order := [] }
    (fun n => if n = "beta" then
      AttemptResult.resp { request_id := "r", provider := "beta", error := some "quota" } 2
    else AttemptResult.exn "down")
    0 0 "r" ["alpha", "beta"] none (fun _ => freshStats 0) (by decide)
  exact ⟨by decide, hc.2.1,
    hc.2.2.2 ["alpha"] "beta" "quota" rfl (by decide) (by decide) (by decide) rfl⟩

/-- Counterexample to C3 as stated: with a configured daily cost ceiling of
zero, the claim's admission-rejection condition holds (a ceiling is
configured and the accumulated daily cost, zero, is greater than or equal
to it), yet `_can_use_provider` admits the provider — Python's truthiness
test `if config.cost_limit_per_day and ...` skips the cost check for a
zero ceiling — and `generate` does attempt it (its request counter becomes
one). -/
theorem claim_C3_counterexample :
    specAdmissionReject (freshStats 0)
      { name := "alpha", rate_limit := 60, cost_limit_per_day := some 0 } 0
    ∧ canUseProvider (freshStats 0)
        { name := "alpha", rate_limit := 60, cost_limit_per_day := some 0 } 0 = true
    ∧ ((generateGo
        { providers := ["alpha"],
          config_providers :=
            fun n => { name := n, rate_limit := 60, cost_limit_per_day := some 0 },
          load_balancing := false, fallback_order := [] }
        (fun _ => AttemptResult.resp { request_id := "r", provider := "alpha" } 1)
        0 0 "r" ["alpha"] none (fun _ => freshStats 0)).2 "alpha").requests = 1 := by
  refine ⟨?_, by decide, by decide⟩
  exact Or.inr (Or.inl ⟨0, rfl, le_refl 0⟩)

/-- C3 amended: a provider is never attempted by `generate` when, at the
moment of the attempt, its current requests-per-minute is at or above its
configured rate limit, or a NONZERO daily cost ceiling is configured and
its accumulated daily cost is at or above that ceiling, or it has more than
10 recorded requests and a success rate below 10 percent; such a provider
fails `_can_use_provider`, is skipped in place (the loop proceeds to the
next candidate with nothing changed), and its statistics never change
during the whole run. -/
theorem claim_C3 (env : ManagerEnv) (behavior : String → AttemptResult)
    (nt : ℚ) (td : Nat) (rid : String) (p : String)
    (st : String → ProviderStats)
    (h : (st p).get_current_rate nt ≥ (env.config_providers p).rate_limit
      ∨ (∃ c, (env.config_providers p).cost_limit_per_day = some c ∧ c ≠ 0
          ∧ (st p).daily_cost ≥ c)
      ∨ ((st p).requests > 10 ∧ (st p).success_rate < 1/10)) :
    canUseProvider (st p) (env.config_providers p) nt = false
    ∧ (∀ (rest : List String) (le : Option String),
        generateGo env behavior nt td rid (p :: rest) le st
          = generateGo env behavior nt td rid rest le st)
    ∧ (∀ (order : List String) (le : Option String),
        (generateGo env behavior nt td rid order le st).2 p = st p) := by
  have hcan : canUseProvider (st p) (env.config_providers p) nt = false := by
    unfold canUseProvider
    by_cases h1 : (st p).get_current_rate nt ≥ (env.config_providers p).rate_limit
    · rw [if_pos h1]
    · rw [if_neg h1]
      rcases h with h | ⟨c, hc, hcne, hcge⟩ | hcirc
      · exact absurd h h1
      · have hcond : (costLimitTruthy (env.config_providers p).cost_limit_per_day
            && decide ((st p).daily_cost
              ≥ ((env.config_providers p).cost_limit_per_day.getD 0))) = true := by
          rw [hc]
          simp [costLimitTruthy, hcne, hcge]
        rw [if_pos hcond]
      · by_cases h2 : (costLimitTruthy (env.config_providers p).cost_limit_per_day
            && decide ((st p).daily_cost
              ≥ ((env.config_providers p).cost_limit_per_day.getD 0))) = true
        · rw [if_pos h2]
        · rw [if_neg h2]
          have hcond : (decide ((st p).requests > 10)
              && decide ((st p).success_rate < 1/10)) = true := by
            simp only [Bool.and_eq_true, decide_eq_true_eq]
            exact ⟨hcirc.1, hcirc.2⟩
          rw [if_pos hcond]
  refine ⟨hcan, ?_, ?_⟩
  · intro rest le
    rw [generateGo_cons]
    by_cases hreg : p ∉ env.providers
    · rw [if_pos hreg]
    · rw [if_neg hreg, if_pos hcan]
  · intro order le
    exact generateGo_never_attempted env behavior nt td rid p order le st hcan

/-- Witness for amended C3: a circuit-broken provider (11 requests, all
failed, success rate zero) fails admission and a run over it alone leaves
its statistics untouched. -/
theorem claim_C3_witness :
    (({ requests := 11, failures := 11, last_reset := 0 }
        : ProviderStats).requests > 10
      ∧ ({ requests := 11, failures := 11, last_reset := 0 }
          : ProviderStats).success_rate < 1/10)
    ∧ canUseProvider
        ({ requests := 11, failures := 11, last_reset := 0 } : ProviderStats)
        { name := "broken", rate_limit := 60 } 30 = false
    ∧ ((generateGo
        { providers := ["broken"],
          config_providers := fun n => { name := n, rate_limit := 60 },
          load_balancing := false, fallback_order := [] }
        (fun _ => AttemptResult.resp { request_id := "r", provider := "broken" } 1)
        30 0 "r" ["broken"] none
        (fun _ => { requests := 11, failures := 11, last_reset := 0 })).2
          "broken")
      = ({ requests := 11, failures := 11, last_reset := 0 } : ProviderStats) := by
  have hc := claim_C3
    { providers := ["broken"],
      config_providers := fun n => { name := n, rate_limit := 60 },
      load_balancing := false, fallback_order := [] }
    (fun _ => AttemptResult.resp { request_id := "r", provider := "broken" } 1)
    30 0 "r" "broken"
    (fun _ => { requests := 11, failures := 11, last_reset := 0 })
    (Or.inr (Or.inr ⟨by decide, by norm_num [ProviderStats.success_rate]⟩))
  exact ⟨⟨by decide, by norm_num [ProviderStats.success_rate]⟩, hc.1,
    hc.2.2 ["broken"] none⟩

/-- Counterexample to C6 as stated: take providers "A" and "B" with
identical statistics (5 requests, 5 successes, no recent requests, equal
rate limit 60) except that "B" has the higher average latency (500 ms
versus 0 ms).  Because the source replaces a zero (falsy) `avg_latency`
with the default 1000 (`avg_latency = stats.avg_latency or 1000`), "A"
scores 0 while "B" scores 50, the computed order is ["B", "A"] — "A" is NOT
ordered before "B" — and "A"'s actual score differs from the claimed
formula, which would give 100. -/
theorem claim_C6_counterexample :
    ((fun n => if n = "B" then
        ({ requests := 5, successes := 5, total_latency := 2500, last_reset := 0 }
          : ProviderStats)
      else
        { requests := 5, successes := 5, total_latency := 0, last_reset := 0 }) "A").avg_latency
      < ((fun n => if n = "B" then
          ({ requests := 5, successes := 5, total_latency := 2500, last_reset := 0 }
            : ProviderStats)
        else
          { requests := 5, successes := 5, total_latency := 0, last_reset := 0 }) "B").avg_latency
    ∧ getLoadBalancedOrder
        { providers := ["A", "B"], config_providers := fun n => { name := n },
          load_balancing := true, fallback_order := [] }
        (fun n => if n = "B" then
          ({ requests := 5, successes := 5, total_latency := 2500, last_reset := 0 }
            : ProviderStats)
        else
          { requests := 5, successes := 5, total_latency := 0, last_reset := 0 })
        0 (fun _ => 0) ["A", "B"] = ["B", "A"]
    ∧ ¬ ([ "A", "B" ].Sublist (getLoadBalancedOrder
        { providers := ["A", "B"], config_providers := fun n => { name := n },
          load_balancing := true, fallback_order := [] }
        (fun n => if n = "B" then
          ({ requests := 5, successes := 5, total_latency := 2500, last_reset := 0 }
            : ProviderStats)
        else
          { requests := 5, successes := 5, total_latency := 0, last_reset := 0 })
        0 (fun _ => 0) ["A", "B"]))
    ∧ providerScore
        ({ requests := 5, successes := 5, total_latency := 0, last_reset := 0 }
          : ProviderStats) { name := "A" } 0
      ≠ specScore
        ({ requests := 5, successes := 5, total_latency := 0, last_reset := 0 }
          : ProviderStats) { name := "A" } 0 := by
  have hstA : (fun n => if n = "B" then
      ({ requests := 5, successes := 5, total_latency := 2500, last_reset := 0 }
        : ProviderStats)
    else
      { requests := 5, successes := 5, total_latency := 0, last_reset := 0 }) "A"
      = ({ requests := 5, successes := 5, total_latency := 0, last_reset := 0 }
          : ProviderStats) := if_neg (by decide)
  have hstB : (fun n => if n = "B" then
      ({ requests := 5, successes := 5, total_latency := 2500, last_reset := 0 }
        : ProviderStats)
    else
      { requests := 5, successes := 5, total_latency := 0, last_reset := 0 }) "B"
      = ({ requests := 5, successes := 5, total_latency := 2500, last_reset := 0 }
          : ProviderStats) := if_pos rfl
  have hgt : providerScore
      ((fun n => if n = "B" then
        ({ requests := 5, successes := 5, total_latency := 2500, last_reset := 0 }
          : ProviderStats)
      else
        { requests := 5, successes := 5, total_latency := 0, last_reset := 0 }) "A")
      (({ providers := ["A", "B"], config_providers := fun n => { name := n },
          load_balancing := true, fallback_order := [] } : ManagerEnv).config_providers "A") 0
    < providerScore
      ((fun n => if n = "B" then
        ({ requests := 5, successes := 5, total_latency := 2500, last_reset := 0 }
          : ProviderStats)
      else
        { requests := 5, successes := 5, total_latency := 0, last_reset := 0 }) "B")
      (({ providers := ["A", "B"], config_providers := fun n => { name := n },
          load_balancing := true, fallback_order := [] } : ManagerEnv).config_providers "B") 0 := by
    rw [hstA, hstB]
    norm_num [providerScore, ProviderStats.success_rate, ProviderStats.avg_latency,
      ProviderStats.get_current_rate]
  have hsub : ["B", "A"].Sublist (getLoadBalancedOrder
      { providers := ["A", "B"], config_providers := fun n => { name := n },
        load_balancing := true, fallback_order := [] }
      (fun n => if n = "B" then
        ({ requests := 5, successes := 5, total_latency := 2500, last_reset := 0 }
          : ProviderStats)
      else
        { requests := 5, successes := 5, total_latency := 0, last_reset := 0 })
      0 (fun _ => 0) ["A", "B"]) :=
    loadBalanced_order_of_score_gt _ _ 0 _ ["A", "B"] "B" "A"
      (by decide) (by decide) (by decide) hgt
  have hlen : (getLoadBalancedOrder
      { providers := ["A", "B"], config_providers := fun n => { name := n },
        load_balancing := true, fallback_order := [] }
      (fun n => if n = "B" then
        ({ requests := 5, successes := 5, total_latency := 2500, last_reset := 0 }
          : ProviderStats)
      else
        { requests := 5, successes := 5, total_latency := 0, last_reset := 0 })
      0 (fun _ => 0) ["A", "B"]).length = 2 := by
    unfold getLoadBalancedOrder
    rw [List.length_map, (List.mergeSort_perm _ _).length_eq, List.length_map]
    rfl
  have horder := hsub.eq_of_length (by rw [hlen]; rfl)
  refine ⟨?_, horder.symm, ?_, ?_⟩
  · rw [hstA, hstB]
    norm_num [ProviderStats.avg_latency]
  · rw [← horder]
    decide
  · norm_num [providerScore, specScore, ProviderStats.success_rate,
      ProviderStats.avg_latency, ProviderStats.get_current_rate]

/-- C6 amended: the load-balancing score equals
`(success_rate × 100) − (avg_latency_ms / 10) −
(current_rate / configured_rate_limit × 50)` whenever the provider's
average latency is nonzero (a zero average latency is replaced by the
1000 ms default by `avg_latency or 1000`); consequently, for two providers
identical except that "B" has the higher average latency, with both average
latencies positive, "A" is ordered strictly before "B" by the load-balanced
ordering, whatever the random tiebreaks. -/
theorem claim_C6 :
    (∀ (stats : ProviderStats) (config : ProviderConfig) (nt : ℚ),
      stats.avg_latency ≠ 0 → providerScore stats config nt = specScore stats config nt)
    ∧ (∀ (env : ManagerEnv) (stats : String → ProviderStats) (nt : ℚ)
        (tb : String → ℚ) (provs : List String) (a b : String),
        a ∈ provs → b ∈ provs → a ≠ b →
        (stats a).requests = (stats b).requests →
        (stats a).successes = (stats b).successes →
        (stats a).recent_requests = (stats b).recent_requests →
        (env.config_providers a).rate_limit = (env.config_providers b).rate_limit →
        0 < (stats a).avg_latency →
        (stats a).avg_latency < (stats b).avg_latency →
        [a, b].Sublist (getLoadBalancedOrder env stats nt tb provs)) := by
  constructor
  · intro stats config nt h
    unfold providerScore specScore
    rw [if_neg h]
  · intro env stats nt tb provs a b ha hb hne h1 h2 h3 h4 h5 h6
    apply loadBalanced_order_of_score_gt env stats nt tb provs a b ha hb hne
    have hsr : (stats a).success_rate = (stats b).success_rate := by
      unfold ProviderStats.success_rate
      rw [h1, h2]
    have hrate : (stats a).get_current_rate nt = (stats b).get_current_rate nt := by
      unfold ProviderStats.get_current_rate
      rw [h3]
    have hA0 : (stats a).avg_latency ≠ 0 := ne_of_gt h5
    have hB0 : (stats b).avg_latency ≠ 0 := ne_of_gt (h5.trans h6)
    unfold providerScore
    rw [if_neg hA0, if_neg hB0, hsr, hrate, h4]
    have hdiv : (stats a).avg_latency / 10 < (stats b).avg_latency / 10 := by
      linarith
    linarith

/-- Witness for amended C6: providers "A" (average latency 100 ms) and "B"
(average latency 500 ms), otherwise identical; "A" is ordered before "B". -/
theorem claim_C6_witness :
    (0 : ℚ) < ((fun n => if n = "B" then
        ({ requests := 5, successes := 5, total_latency := 2500, last_reset := 0 }
          : ProviderStats)
      else
        { requests := 5, successes := 5, total_latency := 500, last_reset := 0 }) "A").avg_latency
    ∧ ((fun n => if n = "B" then
        ({ requests := 5, successes := 5, total_latency := 2500, last_reset := 0 }
          : ProviderStats)
      else
        { requests := 5, successes := 5, total_latency := 500, last_reset := 0 }) "A").avg_latency
      < ((fun n => if n = "B" then
          ({ requests := 5, successes := 5, total_latency := 2500, last_reset := 0 }
            : ProviderStats)
        else
          { requests := 5, successes := 5, total_latency := 500, last_reset := 0 }) "B").avg_latency
    ∧ ["A", "B"].Sublist (getLoadBalancedOrder
        { providers := ["A", "B"], config_providers := fun n => { name := n },
          load_balancing := true, fallback_order := [] }
        (fun n => if n = "B" then
          ({ requests := 5, successes := 5, total_latency := 2500, last_reset := 0 }
            : ProviderStats)
        else
          { requests := 5, successes := 5, total_latency := 500, last_reset := 0 })
        0 (fun _ => 0) ["A", "B"]) := by
  have hwA : (fun n => if n = "B" then
      ({ requests := 5, successes := 5, total_latency := 2500, last_reset := 0 }
        : ProviderStats)
    else
      { requests := 5, successes := 5, total_latency := 500, last_reset := 0 }) "A"
      = ({ requests := 5, successes := 5, total_latency := 500, last_reset := 0 }
          : ProviderStats) := if_neg (by decide)
  have hwB : (fun n => if n = "B" then
      ({ requests := 5, successes := 5, total_latency := 2500, last_reset := 0 }
        : ProviderStats)
    else
      { requests := 5, successes := 5, total_latency := 500, last_reset := 0 }) "B"
      = ({ requests := 5, successes := 5, total_latency := 2500, last_reset := 0 }
          : ProviderStats) := if_pos rfl
  have h5 : (0 : ℚ) < ((fun n => if n = "B" then
      ({ requests := 5, successes := 5, total_latency := 2500, last_reset := 0 }
        : ProviderStats)
    else
      { requests := 5, successes := 5, total_latency := 500, last_reset := 0 }) "A").avg_latency := by
    rw [hwA]
    norm_num [ProviderStats.avg_latency]
  have h6 : ((fun n => if n = "B" then
      ({ requests := 5, successes := 5, total_latency := 2500, last_reset := 0 }
        : ProviderStats)
    else
      { requests := 5, successes := 5, total_latency := 500, last_reset := 0 }) "A").avg_latency
    < ((fun n => if n = "B" then
        ({ requests := 5, successes := 5, total_latency := 2500, last_reset := 0 }
          : ProviderStats)
      else
        { requests := 5, successes := 5, total_latency := 500, last_reset := 0 }) "B").avg_latency := by
    rw [hwA, hwB]
    norm_num [ProviderStats.avg_latency]
  exact ⟨h5, h6, claim_C6.2
    { providers := ["A", "B"], config_providers := fun n => { name := n },
      load_balancing := true, fallback_order := [] }
    (fun n => if n = "B" then
      ({ requests := 5, successes := 5, total_latency := 2500, last_reset := 0 }
        : ProviderStats)
    else
      { requests := 5, successes := 5, total_latency := 500, last_reset := 0 })
    0 (fun _ => 0) ["A", "B"] "A" "B"
    (by decide) (by decide) (by decide) (by rw [hwA, hwB]) (by rw [hwA, hwB])
    (by rw [hwA, hwB]) rfl h5 h6⟩

/-- Counterexample to C8 as stated: an underlying failure whose error text
is the empty string (`str(e)` of a message-less exception).  The claim says
every failure yields a single terminal chunk carrying the error in
metadata; but `if response.error:` is a truthiness test, so `error = ""`
falls into the chunking branch, and the failure response's content being
empty, the adapter yields no chunks at all — in particular no terminal
chunk. -/
theorem claim_C8_counterexample :
    ({ request_id := "r", provider := "gemini", error := some "" }
      : LLMResponse).error = some ""
    ∧ geminiStreamGenerate "r"
        { request_id := "r", provider := "gemini", error := some "" } = []
    ∧ ¬ ∃ c : LLMStreamChunk,
        geminiStreamGenerate "r"
          { request_id := "r", provider := "gemini", error := some "" } = [c]
        ∧ c.is_final = true := by
  have hval : geminiStreamGenerate "r"
      { request_id := "r", provider := "gemini", error := some "" } = [] := by
    unfold geminiStreamGenerate
    rw [if_neg (by decide)]
    rw [show pySplit
        ({ request_id := "r", provider := "gemini", error := some "" }
          : LLMResponse).content = [] from by decide]
    simp [geminiChunksFrom.eq_def]
  refine ⟨rfl, hval, ?_⟩
  rintro ⟨c, hc, -⟩
  rw [hval] at hc
  exact absurd hc (by simp)

/-- C8 amended: for the non-streaming-native adapter (`GeminiProvider`),
when the underlying `generate` succeeds with a 12-word response the
simulated stream has exactly 3 chunks (word groups of five), only the last
chunk carries `is_final`, and the concatenation of the chunks' contents is
the original content's words joined by single spaces plus one trailing
space — equal to the original content up to whitespace; when the
underlying `generate` fails with a NON-EMPTY error message, the adapter
yields a single terminal chunk carrying the error in its metadata instead
of raising; a failure whose error text is the empty string instead falls
into the chunking branch and, the failure response's content being empty,
yields no chunks at all. -/
theorem claim_C8 (rid : String) :
    (∀ (resp : LLMResponse) (ws : List String),
      resp.error = none → pySplit resp.content = ws → ws.length = 12 →
      (geminiStreamGenerate rid resp).length = 3
      ∧ (geminiStreamGenerate rid resp).map (fun c => c.is_final)
          = [false, false, true]
      ∧ concatContents (geminiStreamGenerate rid resp) = joinSpace ws ++ " ")
    ∧ (∀ (resp : LLMResponse) (e : String), resp.error = some e → e ≠ "" →
      geminiStreamGenerate rid resp
        = [{ request_id := rid, content := "", is_final := true,
             metadata := [("error", e)] }])
    ∧ (∀ resp : LLMResponse, resp.error = some "" → pySplit resp.content = [] →
      geminiStreamGenerate rid resp = []) := by
  refine ⟨?_, ?_, ?_⟩
  · intro resp ws herr hsplit hlen
    have hgen : geminiStreamGenerate rid resp = geminiChunksFrom rid ws 0 := by
      unfold geminiStreamGenerate
      rw [herr]
      rw [if_neg (by decide)]
      rw [hsplit]
    rw [hgen]
    rcases ws with _ | ⟨a1, _ | ⟨a2, _ | ⟨a3, _ | ⟨a4, _ | ⟨a5, _ | ⟨a6, _ |
      ⟨a7, _ | ⟨a8, _ | ⟨a9, _ | ⟨a10, _ | ⟨a11, _ | ⟨a12, tl⟩⟩⟩⟩⟩⟩⟩⟩⟩⟩⟩⟩ <;>
      simp only [List.length_cons, List.length_nil] at hlen <;> try omega
    have htl : tl = [] := List.eq_nil_of_length_eq_zero (by omega)
    subst htl
    refine ⟨?_, ?_, ?_⟩
    · simp [geminiChunksFrom.eq_def]
    · simp [geminiChunksFrom.eq_def]
    · simp [geminiChunksFrom.eq_def, concatContents, joinSpace, String.append_assoc]
  · intro resp e herr hne
    unfold geminiStreamGenerate
    rw [herr]
    rw [if_pos (by simp [errTruthy, hne])]
    rfl
  · intro resp herr hsplit0
    unfold geminiStreamGenerate
    rw [herr]
    rw [if_neg (by decide)]
    rw [hsplit0]
    simp [geminiChunksFrom.eq_def]

/-- Witness for amended C8 at the concrete 12-word response
"a b c d e f g h i j k l", at a concrete failure with the non-empty error
"timeout", and at a concrete failure with the empty error text. -/
theorem claim_C8_witness :
    ({ request_id := "r", content := "a b c d e f g h i j k l",
        provider := "gemini" } : LLMResponse).error = none
    ∧ pySplit
        ({ request_id := "r", content := "a b c d e f g h i j k l",
           provider := "gemini" } : LLMResponse).content
      = ["a", "b", "c", "d", "e", "f", "g", "h", "i", "j", "k", "l"]
    ∧ (geminiStreamGenerate "r"
        { request_id := "r", content := "a b c d e f g h i j k l",
          provider := "gemini" }).length = 3
    ∧ geminiStreamGenerate "r"
        { request_id := "r", provider := "gemini", error := some "timeout" }
      = [{ request_id := "r", content := "", is_final := true,
           metadata := [("error", "timeout")] }]
    ∧ geminiStreamGenerate "r"
        { request_id := "r", provider := "gemini", error := some "" } = [] := by
  refine ⟨rfl, by decide, ?_, ?_, ?_⟩
  · exact ((claim_C8 "r").1
      { request_id := "r", content := "a b c d e f g h i j k l",
        provider := "gemini" }
      ["a", "b", "c", "d", "e", "f", "g", "h", "i", "j", "k", "l"]
      rfl (by decide) (by decide)).1
  · exact (claim_C8 "r").2.1
      { request_id := "r", provider := "gemini", error := some "timeout" }
      "timeout" rfl (by decide)
  · exact (claim_C8 "r").2.2
      { request_id := "r", provider := "gemini", error := some "" }
      rfl (by decide)

/-- Counterexample to C5 as stated: providers "A" then "B", both registered
and admissible; "A"'s stream ends with a terminal chunk carrying an error
in its metadata ("fails to produce a usable stream"), "B"'s stream would
succeed.  The claim says the manager continues to "B" and emits the
aggregated-error terminal chunk only after all providers failed; the code
instead forwards "A"'s errored terminal chunk, records "A"'s failure, ends
the call there, and never attempts "B" (B's statistics stay fresh). -/
theorem claim_C5_counterexample :
    ((fun n : String => if n = "A" then
        StreamBehavior.yields
          [{ request_id := "r", is_final := true, metadata := [("error", "boom")] }]
      else
        StreamBehavior.yields
          [{ request_id := "r", content := "ok", is_final := true }]) "A"
      = StreamBehavior.yields
          [{ request_id := "r", is_final := true, metadata := [("error", "boom")] }])
    ∧ (streamGo
        { providers := ["A", "B"], config_providers := fun n => { name := n },
          load_balancing := false, fallback_order := [] }
        (fun n => if n = "A" then
          StreamBehavior.yields
            [{ request_id := "r", is_final := true, metadata := [("error", "boom")] }]
        else
          StreamBehavior.yields
            [{ request_id := "r", content := "ok", is_final := true }])
        (fun _ => 1) 0 0 "r" ["A", "B"] (fun _ => freshStats 0)).1
      = [{ request_id := "r", is_final := true, metadata := [("error", "boom")] }]
    ∧ (streamGo
        { providers := ["A", "B"], config_providers := fun n => { name := n },
          load_balancing := false, fallback_order := [] }
        (fun n => if n = "A" then
          StreamBehavior.yields
            [{ request_id := "r", is_final := true, metadata := [("error", "boom")] }]
        else
          StreamBehavior.yields
            [{ request_id := "r", content := "ok", is_final := true }])
        (fun _ => 1) 0 0 "r" ["A", "B"] (fun _ => freshStats 0)).1
      ≠ [allFailedChunk "r"]
    ∧ ((streamGo
        { providers := ["A", "B"], config_providers := fun n => { name := n },
          load_balancing := false, fallback_order := [] }
        (fun n => if n = "A" then
          StreamBehavior.yields
            [{ request_id := "r", is_final := true, metadata := [("error", "boom")] }]
        else
          StreamBehavior.yields
            [{ request_id := "r", content := "ok", is_final := true }])
        (fun _ => 1) 0 0 "r" ["A", "B"] (fun _ => freshStats 0)).2 "A").failures = 1
    ∧ ((streamGo
        { providers := ["A", "B"], config_providers := fun n => { name := n },
          load_balancing := false, fallback_order := [] }
        (fun n => if n = "A" then
          StreamBehavior.yields
            [{ request_id := "r", is_final := true, metadata := [("error", "boom")] }]
        else
          StreamBehavior.yields
            [{ request_id := "r", content := "ok", is_final := true }])
        (fun _ => 1) 0 0 "r" ["A", "B"] (fun _ => freshStats 0)).2 "B")
      = freshStats 0 := by
  exact ⟨by decide, by decide, by decide, by decide, by decide⟩

/-- C5 amended: `stream_generate` mirrors the selection algorithm — it
skips unregistered or inadmissible candidates in order, and for an
attempted candidate it forwards chunks as they arrive.  Every call emits a
chunk sequence ending in exactly one terminal chunk; candidates outside the
order never have their statistics touched.  At the first terminal chunk of
an attempted candidate the manager records statistics exactly once (success
exactly when the chunk's metadata carries no error) and ends the call
there, whether or not the terminal chunk carries an error — failover to
the next candidate happens only when the adapter raises (recorded as a
failure) or its stream ends without a terminal chunk; the aggregated-error
terminal chunk is emitted only once the candidate list is exhausted, e.g.
when no candidate is registered. -/
theorem claim_C5 (env : ManagerEnv) (sb : String → StreamBehavior)
    (slat : String → ℚ) (nt : ℚ) (td : Nat) (rid : String) :
    (∀ (order : List String) (st : String → ProviderStats),
      ∃ pre c, (streamGo env sb slat nt td rid order st).1 = pre ++ [c]
        ∧ c.is_final = true ∧ ∀ d ∈ pre, d.is_final = false)
    ∧ (∀ (order : List String) (st : String → ProviderStats) (q : String),
        q ∉ order → (streamGo env sb slat nt td rid order st).2 q = st q)
    ∧ (∀ (p : String) (rest : List String) (st : String → ProviderStats)
        (em : List LLMStreamChunk) (c : LLMStreamChunk),
        p ∈ env.providers →
        canUseProvider (st p) (env.config_providers p) nt = true →
        emitUntilFinal (sb p).chunksOf = (em, some c) →
        streamGo env sb slat nt td rid (p :: rest) st
          = (em, updateStats st p
              (fun s => s.record_request c.metaError.isNone (slat p) 0 nt td)))
    ∧ (∀ (p : String) (rest : List String) (st : String → ProviderStats)
        (cs : List LLMStreamChunk) (m : String) (em : List LLMStreamChunk),
        p ∈ env.providers →
        canUseProvider (st p) (env.config_providers p) nt = true →
        sb p = .yieldsThenRaises cs m →
        emitUntilFinal cs = (em, none) →
        streamGo env sb slat nt td rid (p :: rest) st
          = (em ++ (streamGo env sb slat nt td rid rest
              (updateStats st p (fun s => s.record_request false 0 0 nt td))).1,
             (streamGo env sb slat nt td rid rest
              (updateStats st p (fun s => s.record_request false 0 0 nt td))).2))
    ∧ (∀ (order : List String) (st : String → ProviderStats),
        (∀ q ∈ order, q ∉ env.providers) →
        streamGo env sb slat nt td rid order st = ([allFailedChunk rid], st)) := by
  refine ⟨streamGo_shape env sb slat nt td rid,
    streamGo_stats_of_not_mem env sb slat nt td rid, ?_, ?_, ?_⟩
  · intro p rest st em c hp hadm hterm
    rw [streamGo_cons]
    rw [if_neg (by simp [hp])]
    rw [if_neg (by rw [hadm]; simp)]
    cases hsb : sb p with
    | yields cs =>
      rw [hsb] at hterm
      dsimp only [StreamBehavior.chunksOf] at hterm
      dsimp only
      rw [hterm]
    | yieldsThenRaises cs m =>
      rw [hsb] at hterm
      dsimp only [StreamBehavior.chunksOf] at hterm
      dsimp only
      rw [hterm]
  · intro p rest st cs m em hp hadm hsb hnone
    rw [streamGo_cons]
    rw [if_neg (by simp [hp])]
    rw [if_neg (by rw [hadm]; simp)]
    rw [hsb]
    dsimp only
    rw [hnone]
  · intro order
    induction order with
    | nil => intro st _; rfl
    | cons name rest ih =>
      intro st h
      rw [streamGo_cons]
      rw [if_pos (h name (List.mem_cons_self name rest))]
      exact ih st (fun q hq => h q (List.mem_cons_of_mem name hq))

/-- Witness for amended C5: a single registered admissible provider whose
stream is one errored terminal chunk; the call forwards that chunk and
records one failed request, ending there. -/
theorem claim_C5_witness :
    "A" ∈ ({ providers := ["A"], config_providers := fun n => { name := n },
             load_balancing := false, fallback_order := [] } : ManagerEnv).providers
    ∧ canUseProvider (freshStats 0)
        (({ providers := ["A"], config_providers := fun n => { name := n },
            load_balancing := false, fallback_order := [] } : ManagerEnv).config_providers "A")
        0 = true
    ∧ emitUntilFinal ((fun _ : String => StreamBehavior.yields
        [{ request_id := "r", is_final := true,
           metadata := [("error", "boom")] }]) "A").chunksOf
      = ([{ request_id := "r", is_final := true, metadata := [("error", "boom")] }],
          some { request_id := "r", is_final := true, metadata := [("error", "boom")] })
    ∧ streamGo
        { providers := ["A"], config_providers := fun n => { name := n },
          load_balancing := false, fallback_order := [] }
        (fun _ => StreamBehavior.yields
          [{ request_id := "r", is_final := true, metadata := [("error", "boom")] }])
        (fun _ => 1) 0 0 "r" ["A"] (fun _ => freshStats 0)
      = ([{ request_id := "r", is_final := true, metadata := [("error", "boom")] }],
          updateStats (fun _ => freshStats 0) "A"
            (fun s => s.record_request
              ({ request_id := "r", is_final := true,
                 metadata := [("error", "boom")] } : LLMStreamChunk).metaError.isNone
              ((fun _ : String => (1 : ℚ)) "A") 0 0 0)) := by
  refine ⟨by decide, by decide, by decide, ?_⟩
  exact (claim_C5
    { providers := ["A"], config_providers := fun n => { name := n },
      load_balancing := false, fallback_order := [] }
    (fun _ => StreamBehavior.yields
      [{ request_id := "r", is_final := true, metadata := [("error", "boom")] }])
    (fun _ => 1) 0 0 "r").2.2.1 "A" []
    (fun _ => freshStats 0)
    [{ request_id := "r", is_final := true, metadata := [("error", "boom")] }]
    { request_id := "r", is_final := true, metadata := [("error", "boom")] }
    (by decide) (by decide) (by decide)

end AgentsLLM
